import Mathlib

set_option maxHeartbeats 1000000

/-!
# Verification of the ponyc expression type-checking pass (src/pass/expr.c)

This file gives a shallow embedding of the expression type-checking pass of
the ponyc compiler and proves properties of it.  The AST is a single node
structure discriminated by a kind tag, exactly as in the C source.  External
collaborators (the subtype engine, nominal-type constructors, the capability
lattice, scope lookup) are modelled as an abstract `Oracle` / context, since
they live outside this file of the repository; the pass consumes them only
through their boolean/constructor interfaces.

Modelling conventions, applied uniformly:
* C `NULL` becomes `Option`; an `ast_t*` parameter that may be `NULL` becomes
  `Option Ast`.
* `ast_error` pushes a diagnostic string; the C format strings are kept
  verbatim except that apostrophes are elided.
* `ast_free` / `ast_free_unattached` are memory management and are no-ops in
  a pure model.
* A C path that dereferences `NULL` or trips an `assert` is modelled as a
  silent failure (`crash` below): it neither attaches a type nor emits a
  diagnostic.
* `ast_sibling(node)` on the node itself (the are-we-last-in-a-sequence
  check) and the parent / enclosing-of-kind queries are context queries; the
  walker threads them in a `Ctx`.
-/

/-- Token kinds used by the pass (the subset of ponyc token ids that
`src/pass/expr.c` mentions).  `tkCap n` stands for a capability token
(`iso`, `ref`, ...) as produced by the capability oracle. -/
inductive TokenId where
  | tkNone | tkQuestion
  | tkNominal | tkTupleType | tkUnionType | tkIsectType | tkStructural | tkArrow
  | tkError
  | tkSeq | tkTuple | tkDot | tkQualify | tkCall | tkReference | tkThis
  | tkAssign | tkConsume
  | tkIf | tkWhile | tkRepeat | tkFor | tkTry
  | tkContinue | tkBreak | tkReturn
  | tkInt | tkFloat | tkString
  | tkFvar | tkFlet | tkParam | tkVar | tkLet | tkIdseq
  | tkNew | tkBe | tkFun
  | tkMultiply | tkDivide | tkMod | tkPlus | tkMinus
  | tkLshift | tkRshift
  | tkLt | tkLe | tkGe | tkGt | tkEq | tkNe | tkIs | tkIsnt
  | tkAnd | tkOr | tkXor | tkNot
  | tkArray | tkObject
  | tkId | tkPackage | tkType | tkClass | tkActor | tkTrait
  | tkParams | tkTypes | tkTypeparams | tkTypeargs
  | tkCap (c : Nat)

/-- numeric code of a token kind; used to decide equality cheaply -/
def TokenId.code : TokenId → Nat
  | .tkNone => 0 | .tkQuestion => 1
  | .tkNominal => 2 | .tkTupleType => 3 | .tkUnionType => 4 | .tkIsectType => 5
  | .tkStructural => 6 | .tkArrow => 7
  | .tkError => 8
  | .tkSeq => 9 | .tkTuple => 10 | .tkDot => 11 | .tkQualify => 12
  | .tkCall => 13 | .tkReference => 14 | .tkThis => 15
  | .tkAssign => 16 | .tkConsume => 17
  | .tkIf => 18 | .tkWhile => 19 | .tkRepeat => 20 | .tkFor => 21 | .tkTry => 22
  | .tkContinue => 23 | .tkBreak => 24 | .tkReturn => 25
  | .tkInt => 26 | .tkFloat => 27 | .tkString => 28
  | .tkFvar => 29 | .tkFlet => 30 | .tkParam => 31 | .tkVar => 32 | .tkLet => 33
  | .tkIdseq => 34
  | .tkNew => 35 | .tkBe => 36 | .tkFun => 37
  | .tkMultiply => 38 | .tkDivide => 39 | .tkMod => 40 | .tkPlus => 41
  | .tkMinus => 42
  | .tkLshift => 43 | .tkRshift => 44
  | .tkLt => 45 | .tkLe => 46 | .tkGe => 47 | .tkGt => 48 | .tkEq => 49
  | .tkNe => 50 | .tkIs => 51 | .tkIsnt => 52
  | .tkAnd => 53 | .tkOr => 54 | .tkXor => 55 | .tkNot => 56
  | .tkArray => 57 | .tkObject => 58
  | .tkId => 59 | .tkPackage => 60 | .tkType => 61 | .tkClass => 62
  | .tkActor => 63 | .tkTrait => 64
  | .tkParams => 65 | .tkTypes => 66 | .tkTypeparams => 67 | .tkTypeargs => 68
  | .tkCap c => c + 69

/-- left inverse of `TokenId.code` -/
def TokenId.ofCode : Nat → TokenId
  | 0 => .tkNone | 1 => .tkQuestion
  | 2 => .tkNominal | 3 => .tkTupleType | 4 => .tkUnionType | 5 => .tkIsectType
  | 6 => .tkStructural | 7 => .tkArrow
  | 8 => .tkError
  | 9 => .tkSeq | 10 => .tkTuple | 11 => .tkDot | 12 => .tkQualify
  | 13 => .tkCall | 14 => .tkReference | 15 => .tkThis
  | 16 => .tkAssign | 17 => .tkConsume
  | 18 => .tkIf | 19 => .tkWhile | 20 => .tkRepeat | 21 => .tkFor | 22 => .tkTry
  | 23 => .tkContinue | 24 => .tkBreak | 25 => .tkReturn
  | 26 => .tkInt | 27 => .tkFloat | 28 => .tkString
  | 29 => .tkFvar | 30 => .tkFlet | 31 => .tkParam | 32 => .tkVar | 33 => .tkLet
  | 34 => .tkIdseq
  | 35 => .tkNew | 36 => .tkBe | 37 => .tkFun
  | 38 => .tkMultiply | 39 => .tkDivide | 40 => .tkMod | 41 => .tkPlus
  | 42 => .tkMinus
  | 43 => .tkLshift | 44 => .tkRshift
  | 45 => .tkLt | 46 => .tkLe | 47 => .tkGe | 48 => .tkGt | 49 => .tkEq
  | 50 => .tkNe | 51 => .tkIs | 52 => .tkIsnt
  | 53 => .tkAnd | 54 => .tkOr | 55 => .tkXor | 56 => .tkNot
  | 57 => .tkArray | 58 => .tkObject
  | 59 => .tkId | 60 => .tkPackage | 61 => .tkType | 62 => .tkClass
  | 63 => .tkActor | 64 => .tkTrait
  | 65 => .tkParams | 66 => .tkTypes | 67 => .tkTypeparams | 68 => .tkTypeargs
  | c + 69 => .tkCap c

theorem TokenId.ofCode_code (a : TokenId) : TokenId.ofCode a.code = a := by
  cases a <;> rfl

instance : DecidableEq TokenId := fun a b =>
  if h : a.code = b.code then
    .isTrue (by
      have h2 := congrArg TokenId.ofCode h
      rwa [TokenId.ofCode_code, TokenId.ofCode_code] at h2)
  else
    .isFalse (fun e => h (congrArg TokenId.code e))

/-- An AST node: kind tag, ordered children, optional attached type node,
interned string (for identifiers / string tokens), integer value (for `INT`
tokens), and source position.  Type nodes share the same shape. -/
inductive Ast where
  | node (tid : TokenId) (children : List Ast) (typ : Option Ast)
         (nm : String) (ival : Nat) (line : Nat) (pos : Nat)

/-- `ast_id` -/
def ast_id : Ast → TokenId
  | .node i _ _ _ _ _ _ => i

/-- child list of a node -/
def ast_children : Ast → List Ast
  | .node _ cs _ _ _ _ _ => cs

/-- `ast_type`: the attached type slot -/
def ast_type : Ast → Option Ast
  | .node _ _ t _ _ _ _ => t

/-- `ast_name` -/
def ast_name : Ast → String
  | .node _ _ _ n _ _ _ => n

/-- `ast_int` -/
def ast_int : Ast → Nat
  | .node _ _ _ _ v _ _ => v

/-- `ast_line` -/
def ast_line : Ast → Nat
  | .node _ _ _ _ _ l _ => l

/-- `ast_pos` -/
def ast_pos : Ast → Nat
  | .node _ _ _ _ _ _ p => p

/-- `ast_child`: first child -/
def ast_child (a : Ast) : Option Ast := (ast_children a).head?

/-- `ast_childidx` -/
def ast_childidx (a : Ast) (i : Nat) : Option Ast := (ast_children a)[i]?

/-- `ast_childlast` -/
def ast_childlast (a : Ast) : Option Ast := (ast_children a).getLast?

/-- `ast_settype`: write the type slot (C may write `NULL`). -/
def ast_settype (a : Ast) (t : Option Ast) : Ast :=
  match a with
  | .node i cs _ n v l p => .node i cs t n v l p

/-- `ast_from(ast, id)`: fresh childless node of the given kind at the
source position of `a`. -/
def ast_from (a : Ast) (i : TokenId) : Ast :=
  .node i [] none "" 0 (ast_line a) (ast_pos a)

/-- `ast_from_string` -/
def ast_from_string (a : Ast) (s : String) : Ast :=
  .node .tkId [] none s 0 (ast_line a) (ast_pos a)

/-- The external collaborators consumed by the pass.  The subtype engine is
modelled as a fixed oracle on (possibly `NULL`) type nodes; the nominal-type
constructors may fail (return `NULL`); the capability lattice works on
capability tokens (as `Nat`).  The scope argument of `is_subtype` /
`is_eqtype` / `nominal_*` is dropped: the pass always passes the current
node, and the engine is specified only as a function of the two types. -/
structure Oracle where
  isSub : Option Ast → Option Ast → Bool
  isEq : Option Ast → Option Ast → Bool
  nomBuiltin : String → Option Ast
  nomType : Option String → String → Option Ast
  pkgGet : Ast → String → Option Ast
  capForFun : Ast → Nat
  capSubCap : Nat → Nat → Bool

/-- The tree context of the visited node: scope lookup (`ast_get`), the
receiver capability at this position (`cap_for_receiver`), the parent kind,
whether the node has a next sibling (`ast_sibling(ast) != NULL`), and the
enclosing-of-kind queries (`ast_enclosing_loop`, `ast_enclosing_method_body`,
`ast_enclosing_type`). -/
structure Ctx where
  lookup : String → Option Ast
  recvCap : Nat
  parentId : TokenId
  hasNextSibling : Bool
  inLoop : Bool
  enclMethod : Option Ast
  enclType : Option Ast

/-- Outcome of one component: `ok` is the C boolean result, `setType` records
whether `ast_settype` was called and with what value, `diags` the diagnostics
emitted (in order). -/
structure ExprResult where
  ok : Bool
  setType : Option (Option Ast)
  diags : List String

/-- A C path that dereferences NULL or fails an `assert`: modelled as a
silent failure. -/
def crash : ExprResult := ⟨false, none, []⟩

/-- `def_before_use` -/
def def_before_use (defn use : Ast) (nm : String) : Bool × List String :=
  if ast_line defn > ast_line use ∨
     (ast_line defn = ast_line use ∧ ast_pos defn > ast_pos use) then
    (false, ["declaration of " ++ nm ++ " appears after use",
             "declaration of " ++ nm ++ " appears here"])
  else
    (true, [])

/-- `tuple_index`: get the nth typedef out of a tuple definition. -/
def tuple_index (a : Ast) (index : Nat) : Option Ast :=
  if index > 1 then
    match ast_childidx a 1 with
    | none => none
    | some right =>
      if ast_id right = .tkTupleType then tuple_index right (index - 1)
      else none
  else if index = 0 then
    ast_child a
  else
    match ast_childidx a 1 with
    | none => none
    | some right =>
      if ast_id right = .tkTupleType then ast_child right
      else some right
  termination_by index
  decreasing_by omega

/-- `type_builtin` -/
def type_builtin (o : Oracle) (a : Ast) (nm : String) : Option Ast :=
  if o.isSub (ast_type a) (o.nomBuiltin nm) then ast_type a else none

/-- `type_bool` -/
def type_bool (o : Oracle) (a : Ast) : Option Ast := type_builtin o a "Bool"

/-- `type_int` -/
def type_int (o : Oracle) (a : Ast) : Option Ast := type_builtin o a "Integer"

/-- `type_int_or_bool` (also returns the diagnostic it may emit) -/
def type_int_or_bool (o : Oracle) (a : Ast) : Option Ast × List String :=
  match type_bool o a with
  | some t => (some t, [])
  | none =>
    match type_int o a with
    | some t => (some t, [])
    | none => (none, ["expected Bool or an integer type"])

/-- `type_arithmetic` -/
def type_arithmetic (o : Oracle) (a : Ast) : Option Ast :=
  type_builtin o a "Arithmetic"

/-- `type_super`: if one of the two types is a super type of the other,
return it. -/
def type_super (o : Oracle) (l_type r_type : Option Ast) : Option Ast :=
  match l_type, r_type with
  | some lt, some rt =>
    if o.isSub (some lt) (some rt) then some rt
    else if o.isSub (some rt) (some lt) then some lt
    else none
  | _, _ => none

/-- `type_union`: the join if one exists, otherwise a fresh
`UNIONTYPE(l, r)` (built by two `ast_add` prepends, so the left operand is
the left child). -/
def type_union (o : Oracle) (a : Ast) (l_type r_type : Option Ast) :
    Option Ast :=
  match type_super o l_type r_type with
  | some s => some s
  | none =>
    match l_type, r_type with
    | some lt, some rt =>
      some (.node .tkUnionType [lt, rt] none "" 0 (ast_line a) (ast_pos a))
    | _, _ => none

/-- `type_for_fun`: reshape a `NEW`/`BE`/`FUN` declaration
`(cap, id, typeparams, params, result, throws, body)` into the method type
`(cap, id, typeparams, param-types-only, result, throws, NONE)`. -/
def type_for_fun (a : Ast) : Option Ast :=
  match ast_children a with
  | cap :: idn :: typeparams :: params :: result :: throws :: _ =>
    if ast_id params = .tkParams then
      match (ast_children params).mapM (fun p => ast_childidx p 1) with
      | none => none
      | some ts =>
        some (.node (ast_id a)
          [cap, idn, typeparams,
           .node .tkTypes ts none "" 0 (ast_line a) (ast_pos a),
           result, throws, ast_from a .tkNone]
          none "" 0 (ast_line a) (ast_pos a))
    else
      some (.node (ast_id a)
        [cap, idn, typeparams, params, result, throws, ast_from a .tkNone]
        none "" 0 (ast_line a) (ast_pos a))
  | _ => none

mutual
/-- `is_lvalue`: a `REFERENCE`, a `DOT`, or a `TUPLE` all of whose
components are lvalues. -/
def is_lvalue (a : Ast) : Bool :=
  match a with
  | .node .tkReference _ _ _ _ _ _ => true
  | .node .tkDot _ _ _ _ _ _ => true
  | .node .tkTuple cs _ _ _ _ _ => lvalue_list cs
  | _ => false

/-- the child loop of `is_lvalue` on a `TUPLE` -/
def lvalue_list : List Ast → Bool
  | [] => true
  | c :: cs => is_lvalue c && lvalue_list cs
end

/-- `expr_field` (`FVAR`/`FLET`/`PARAM`): children are
`(id, type, initialiser, ...)`. -/
def expr_field (o : Oracle) (a : Ast) : ExprResult :=
  match ast_childidx a 1, ast_childidx a 2 with
  | some type0, some init =>
    if ast_id type0 = .tkNone ∧ ast_id init = .tkNone then
      ⟨false, none, ["field/param needs a type or an initialiser"]⟩
    else if ast_id type0 = .tkNone then
      ⟨true, some (ast_type init), []⟩
    else if ast_id init ≠ .tkNone then
      if ¬ o.isSub (ast_type init) (some type0) then
        ⟨false, none,
          ["field/param initialiser is not a subtype of the field/param type"]⟩
      else ⟨true, some (some type0), []⟩
    else ⟨true, some (some type0), []⟩
  | _, _ => crash

/-- `expr_literal` -/
def expr_literal (o : Oracle) (_a : Ast) (nm : String) : ExprResult :=
  match o.nomBuiltin nm with
  | none => ⟨false, none, []⟩
  | some t => ⟨true, some (some t), []⟩

/-- `expr_this`: synthesize a nominal type for the enclosing type
declaration, with the receiver capability and the enclosing type parameters
mirrored as type arguments. -/
def expr_this (o : Oracle) (ctx : Ctx) (a : Ast) : ExprResult :=
  match ctx.enclType with
  | none => crash
  | some defn =>
    if ast_id defn = .tkType then crash
    else
      match ast_childidx defn 0, ast_childidx defn 1 with
      | some idn, some typeparams =>
        let pkgNode := ast_from a .tkNone
        let idNode := ast_from_string a (ast_name idn)
        let capNode : Ast :=
          .node (.tkCap ctx.recvCap) [] none "" 0 (ast_line a) (ast_pos a)
        let ephNode := ast_from a .tkNone
        if ast_id typeparams = .tkTypeparams then
          match (ast_children typeparams).mapM
              (fun tp => (ast_childidx tp 0).bind
                (fun tpid => o.nomType none (ast_name tpid))) with
          | none => crash
          | some targs =>
            let typeargs : Ast :=
              .node .tkTypeargs targs none "" 0 (ast_line a) (ast_pos a)
            ⟨true, some (some (.node .tkNominal
              [pkgNode, idNode, typeargs, capNode, ephNode]
              none "" 0 (ast_line a) (ast_pos a))), []⟩
        else
          ⟨true, some (some (.node .tkNominal
            [pkgNode, idNode, ast_from a .tkNone, capNode, ephNode]
            none "" 0 (ast_line a) (ast_pos a))), []⟩
      | _, _ => crash

/-- `expr_reference`: look the identifier up in scope and dispatch on the
kind of the definition found. -/
def expr_reference (o : Oracle) (ctx : Ctx) (a : Ast) : ExprResult :=
  match ast_childidx a 0 with
  | none => crash
  | some idnode =>
    let nm := ast_name idnode
    match ctx.lookup nm with
    | none => ⟨false, none, ["cant find declaration of " ++ nm]⟩
    | some defn =>
      match ast_id defn with
      | .tkPackage =>
        if ctx.parentId ≠ .tkDot then
          ⟨false, none, ["a package can only appear as a prefix to a type"]⟩
        else ⟨true, none, []⟩
      | .tkType | .tkClass | .tkActor =>
        match ast_childidx defn 0 with
        | none => crash
        | some idn => ⟨true, some (o.nomType none (ast_name idn)), []⟩
      | .tkFvar | .tkFlet | .tkParam =>
        match def_before_use defn a nm with
        | (true, _) => ⟨true, some (ast_type defn), []⟩
        | (false, ds) => ⟨false, none, ds⟩
      | .tkNew | .tkBe | .tkFun =>
        match type_for_fun defn with
        | none => crash
        | some f => ⟨true, some (some f), []⟩
      | .tkIdseq =>
        match def_before_use defn a nm with
        | (true, ds) => ⟨false, none, ds ++ ["not implemented (reference local)"]⟩
        | (false, ds) => ⟨false, none, ds⟩
      | _ => crash

/-- `expr_dot`: member by position on a tuple, or a type in a package. -/
def expr_dot (o : Oracle) (ctx : Ctx) (a : Ast) : ExprResult :=
  match ast_childidx a 0, ast_childidx a 1 with
  | some left, some right =>
    match ast_id right with
    | .tkId =>
      match ast_type left with
      | none =>
        match ctx.lookup (ast_name left) with
        | none => ⟨false, none, []⟩
        | some package =>
          if ast_id package ≠ .tkPackage then crash
          else
            let package_name := ast_name left
            let type_name := ast_name right
            match o.pkgGet package type_name with
            | none =>
              ⟨false, none, ["cant find type " ++ type_name ++
                " in package " ++ package_name]⟩
            | some _ =>
              ⟨true, some (o.nomType (some package_name) type_name), []⟩
      | some _ => ⟨false, none, ["not implemented (dot)"]⟩
    | .tkInt =>
      match ast_type left with
      | none =>
        ⟨false, none, ["member by position can only be used on a tuple"]⟩
      | some t =>
        if ast_id t ≠ .tkTupleType then
          ⟨false, none, ["member by position can only be used on a tuple"]⟩
        else
          match tuple_index t (ast_int right) with
          | none => ⟨false, none, ["tuple index is out of bounds"]⟩
          | some ty => ⟨true, some (some ty), []⟩
    | _ => crash
  | _, _ => crash

/-- `expr_qualify` (stubbed in the source) -/
def expr_qualify (_a : Ast) : ExprResult :=
  ⟨false, none, ["not implemented (qualify)"]⟩

/-- `expr_identity` (`is`, `isnt`) -/
def expr_identity (o : Oracle) (a : Ast) : ExprResult :=
  match ast_childidx a 0, ast_childidx a 1 with
  | some left, some right =>
    if (type_super o (ast_type left) (ast_type right)).isNone then
      ⟨false, none, ["left and right side must have related types"]⟩
    else expr_literal o a "Bool"
  | _, _ => crash

/-- `expr_compare` (`==`, `!=`) -/
def expr_compare (o : Oracle) (a : Ast) : ExprResult :=
  match ast_childidx a 0, ast_childidx a 1 with
  | some left, some right =>
    match type_super o (type_arithmetic o left) (type_arithmetic o right) with
    | some _ => ⟨true, some (o.nomBuiltin "Bool"), []⟩
    | none =>
      if ¬ o.isSub (ast_type right) (ast_type left) then
        ⟨false, none, ["right side must be a subtype of left side"]⟩
      else ⟨true, some (o.nomBuiltin "Bool"), []⟩
  | _, _ => crash

/-- `expr_order` (`<`, `<=`, `>=`, `>`) -/
def expr_order (o : Oracle) (a : Ast) : ExprResult :=
  match ast_childidx a 0, ast_childidx a 1 with
  | some left, some right =>
    match type_super o (type_arithmetic o left) (type_arithmetic o right) with
    | some _ => ⟨true, some (o.nomBuiltin "Bool"), []⟩
    | none =>
      if ¬ o.isSub (ast_type right) (ast_type left) then
        ⟨false, none, ["right side must be a subtype of left side"]⟩
      else ⟨true, some (o.nomBuiltin "Bool"), []⟩
  | _, _ => crash

/-- `expr_arithmetic` (`*`, `/`, `%`, `+`) -/
def expr_arithmetic (o : Oracle) (a : Ast) : ExprResult :=
  match ast_childidx a 0, ast_childidx a 1 with
  | some left, some right =>
    match type_super o (type_arithmetic o left) (type_arithmetic o right) with
    | none =>
      ⟨false, none, ["left and right side must have related arithmetic types"]⟩
    | some ty => ⟨true, some (some ty), []⟩
  | _, _ => crash

/-- `expr_minus` (unary or binary `-`) -/
def expr_minus (o : Oracle) (a : Ast) : ExprResult :=
  match ast_childidx a 0 with
  | none => crash
  | some left =>
    match ast_childidx a 1 with
    | some right =>
      match type_super o (type_arithmetic o left) (type_arithmetic o right) with
      | none =>
        ⟨false, none,
          ["left and right side must have related arithmetic types"]⟩
      | some ty => ⟨true, some (some ty), []⟩
    | none =>
      match type_arithmetic o left with
      | none => ⟨false, none, ["must have an arithmetic type"]⟩
      | some ty => ⟨true, some (some ty), []⟩

/-- `expr_shift` (`<<`, `>>`): result type is the left side. -/
def expr_shift (o : Oracle) (a : Ast) : ExprResult :=
  match ast_childidx a 0, ast_childidx a 1 with
  | some left, some right =>
    match type_int o left, type_int o right with
    | some lt, some _ => ⟨true, some (some lt), []⟩
    | _, _ => ⟨false, none, ["left and right side must have integer types"]⟩
  | _, _ => crash

/-- `expr_logical` (`and`, `or`, `xor`) -/
def expr_logical (o : Oracle) (a : Ast) : ExprResult :=
  match ast_childidx a 0, ast_childidx a 1 with
  | some left, some right =>
    match type_super o (type_int_or_bool o left).1 (type_int_or_bool o right).1 with
    | none =>
      ⟨false, none,
        (type_int_or_bool o left).2 ++ (type_int_or_bool o right).2 ++
        ["left and right side must have related integer or boolean types"]⟩
    | some ty =>
      ⟨true, some (some ty),
        (type_int_or_bool o left).2 ++ (type_int_or_bool o right).2⟩
  | _, _ => crash

/-- `expr_not` -/
def expr_not (o : Oracle) (a : Ast) : ExprResult :=
  match ast_childidx a 0 with
  | none => crash
  | some child =>
    match type_int_or_bool o child with
    | (none, ds) => ⟨false, none, ds⟩
    | (some ty, ds) => ⟨true, some (some ty), ds⟩

/-- the right-cons `TUPLETYPE` spine built by the loop in `expr_tuple`:
`TUPLETYPE(t1, TUPLETYPE(t2, ... TUPLETYPE(t_n-1, t_n)))`, the tail element
kept bare. -/
def tuple_spine (a : Ast) : List Ast → Ast
  | [] => ast_from a .tkTupleType
  | [t] => t
  | t :: ts =>
    .node .tkTupleType [t, tuple_spine a ts] none "" 0 (ast_line a) (ast_pos a)

/-- `expr_tuple` -/
def expr_tuple (_o : Oracle) (a : Ast) : ExprResult :=
  match ast_children a with
  | [] => crash
  | [c] => ⟨true, some (ast_type c), []⟩
  | cs =>
    match cs.mapM ast_type with
    | none => crash
    | some ts => ⟨true, some (some (tuple_spine a ts)), []⟩

/-- `expr_call`: dispatch on the type of the callee. -/
def expr_call (o : Oracle) (ctx : Ctx) (a : Ast) : ExprResult :=
  match ast_childidx a 0 with
  | none => crash
  | some left =>
    match ast_type left with
    | none => crash
    | some t =>
      match ast_id t with
      | .tkNew | .tkBe | .tkFun =>
        if ¬ o.capSubCap ctx.recvCap (o.capForFun t) then
          ⟨false, none,
            ["receiver capability is not a subtype of method capability"]⟩
        else ⟨true, some (ast_childidx t 4), []⟩
      | .tkUnionType | .tkIsectType | .tkNominal | .tkStructural | .tkArrow =>
        ⟨false, none, ["not implemented (apply sugar)"]⟩
      | .tkTupleType => ⟨false, none, ["cant call a tuple type"]⟩
      | _ => crash

/-- `expr_if` -/
def expr_if (o : Oracle) (a : Ast) : ExprResult :=
  match ast_childidx a 0, ast_childidx a 1, ast_childidx a 2 with
  | some cond, some left, some right =>
    if (type_bool o cond).isNone then
      ⟨false, none, ["condition must be a Bool"]⟩
    else
      let l_type := ast_type left
      let r_type :=
        if ast_id right = .tkNone then o.nomBuiltin "None" else ast_type right
      ⟨true, some (type_union o a l_type r_type), []⟩
  | _, _, _ => crash

/-- `expr_while` -/
def expr_while (o : Oracle) (a : Ast) : ExprResult :=
  match ast_childidx a 0 with
  | none => crash
  | some cond =>
    if (type_bool o cond).isNone then
      ⟨false, none, ["condition must be a Bool"]⟩
    else ⟨true, some (o.nomBuiltin "None"), []⟩

/-- `expr_repeat` (condition is the second child) -/
def expr_repeat (o : Oracle) (a : Ast) : ExprResult :=
  match ast_childidx a 0, ast_childidx a 1 with
  | some _, some cond =>
    if (type_bool o cond).isNone then
      ⟨false, none, ["condition must be a Bool"]⟩
    else ⟨true, some (o.nomBuiltin "None"), []⟩
  | _, _ => crash

/-- `expr_continue` (also used for `break`) -/
def expr_continue (o : Oracle) (ctx : Ctx) (_a : Ast) : ExprResult :=
  if ¬ ctx.inLoop then ⟨false, none, ["must be in a loop"]⟩
  else if ctx.hasNextSibling then
    ⟨false, none, ["must be the last expression in a sequence",
                   "is followed with this expression"]⟩
  else ⟨true, some (o.nomBuiltin "None"), []⟩

/-- `expr_return`: note that this component never attaches a type. -/
def expr_return (o : Oracle) (ctx : Ctx) (a : Ast) : ExprResult :=
  match ast_childidx a 0 with
  | none => crash
  | some body =>
    let t := ast_type body
    match ctx.enclMethod with
    | none =>
      ⟨false, none, ["return must occur in a function or a behaviour body"]⟩
    | some fn =>
      let ok0 := ¬ ctx.hasNextSibling
      let ds0 : List String :=
        if ctx.hasNextSibling then
          ["must be the last expression in a sequence",
           "is followed with this expression"]
        else []
      match ast_id fn with
      | .tkNew => ⟨false, none, ds0 ++ ["cannot return in a constructor"]⟩
      | .tkBe =>
        if ¬ o.isSub t (o.nomBuiltin "None") then
          ⟨false, none,
            ds0 ++ ["body of a return in a behaviour must have type None"]⟩
        else ⟨ok0, none, ds0⟩
      | .tkFun =>
        match ast_childidx fn 4 with
        | none => crash
        | some result0 =>
          let result :=
            if ast_id result0 = .tkNone then o.nomBuiltin "None"
            else some result0
          if ¬ o.isSub t result then
            ⟨false, none,
              ds0 ++ ["body of return doesnt match the function return type"]⟩
          else ⟨ok0, none, ds0⟩
      | _ => crash

/-- `expr_assign` -/
def expr_assign (o : Oracle) (a : Ast) : ExprResult :=
  match ast_childidx a 0, ast_childidx a 1 with
  | some left, some right =>
    if ¬ is_lvalue left then
      ⟨false, none, ["left side must be something that can be assigned to"]⟩
    else if ¬ o.isSub (ast_type right) (ast_type left) then
      ⟨false, none, ["right side must be a subtype of left side"]⟩
    else ⟨true, some (ast_type left), []⟩
  | _, _ => crash

/-- `expr_consume` (stubbed in the source) -/
def expr_consume (_a : Ast) : ExprResult :=
  ⟨false, none, ["not implemented (consume)"]⟩

/-- `expr_error`: must be last in its sequence; attaches a fresh `ERROR`
marker. -/
def expr_error (ctx : Ctx) (a : Ast) : ExprResult :=
  if ctx.hasNextSibling then
    ⟨false, none, ["error must be the last expression in a sequence",
                   "error is followed with this expression"]⟩
  else ⟨true, some (some (ast_from a .tkError)), []⟩

/-- `expr_seq`: the type is the last child type, unioned with the `ERROR`
marker if any child type is a supertype of `ERROR`. -/
def expr_seq (o : Oracle) (a : Ast) : ExprResult :=
  match ast_children a with
  | [] => crash
  | cs =>
    let error := ast_from a .tkError
    let can_error := cs.any (fun c => o.isSub (some error) (ast_type c))
    let lastType : Option Ast :=
      match cs.getLast? with
      | some c => ast_type c
      | none => none
    if can_error then ⟨true, some (type_union o a lastType (some error)), []⟩
    else ⟨true, some lastType, []⟩

/-- `expr_fun` (`FUN`/`BE`/`NEW` declarations): children of interest are
`result` (index 4), `can_error` (index 5), `body` (index 6).  This component
never attaches a type. -/
def expr_fun (o : Oracle) (ctx : Ctx) (a : Ast) : ExprResult :=
  match ast_childidx a 4, ast_childidx a 5, ast_childidx a 6 with
  | some type0, some can_error, some body =>
    if ast_id body = .tkNone then ⟨true, none, []⟩
    else
      match ctx.enclType with
      | none => crash
      | some defn =>
        let is_trait := ast_id defn = .tkTrait
        match ast_type body with
        | none => crash
        | some body_type =>
          if ast_id body_type = .tkError then
            ⟨false, none, ["function body always results in an error",
                           "function body expression is here"]⟩
          else
            let error := ast_from a .tkError
            let part1 : Bool × List String :=
              if ast_id can_error = .tkQuestion then
                if ¬ is_trait ∧ ¬ o.isSub (some error) (some body_type) then
                  (false, ["function body is not partial but the function is"])
                else (true, [])
              else
                if o.isSub (some error) (some body_type) then
                  (false, ["function body is partial but the function is not"])
                else (true, [])
            if ast_id type0 ≠ .tkNone then
              let type1 : Option Ast :=
                if ast_id can_error = .tkQuestion then
                  type_union o a (some type0) (some error)
                else some type0
              let part2 : Bool × List String :=
                if ¬ o.isSub (some body_type) type1 then
                  (false, ["function body isnt a subtype of the result type",
                           "function body expression is here"])
                else (true, [])
              let part3 : Bool × List String :=
                if ¬ is_trait ∧ ¬ o.isEq (some body_type) type1 then
                  (false, ["function body is more specific than the result type",
                           "function body expression is here"])
                else (true, [])
              ⟨part1.1 && part2.1 && part3.1, none,
                part1.2 ++ part2.2 ++ part3.2⟩
            else ⟨part1.1, none, part1.2⟩
  | _, _, _ => crash

/-- `type_expr`: the dispatcher.  `ok = false` corresponds to `AST_FATAL`;
a kind with no case is a no-op returning `AST_OK`. -/
def type_expr (o : Oracle) (ctx : Ctx) (a : Ast) : ExprResult :=
  match ast_id a with
  | .tkFvar | .tkFlet | .tkParam => expr_field o a
  | .tkNew | .tkBe | .tkFun => expr_fun o ctx a
  | .tkSeq => expr_seq o a
  | .tkVar | .tkLet => ⟨false, none, ["not implemented (local)"]⟩
  | .tkContinue | .tkBreak => expr_continue o ctx a
  | .tkReturn => expr_return o ctx a
  | .tkMultiply | .tkDivide | .tkMod | .tkPlus => expr_arithmetic o a
  | .tkMinus => expr_minus o a
  | .tkLshift | .tkRshift => expr_shift o a
  | .tkLt | .tkLe | .tkGe | .tkGt => expr_order o a
  | .tkEq | .tkNe => expr_compare o a
  | .tkIs | .tkIsnt => expr_identity o a
  | .tkAnd | .tkXor | .tkOr => expr_logical o a
  | .tkNot => expr_not o a
  | .tkAssign => expr_assign o a
  | .tkConsume => expr_consume a
  | .tkDot => expr_dot o ctx a
  | .tkQualify => expr_qualify a
  | .tkCall => expr_call o ctx a
  | .tkIf => expr_if o a
  | .tkWhile => expr_while o a
  | .tkRepeat => expr_repeat o a
  | .tkFor => ⟨false, none, ["not implemented (for)"]⟩
  | .tkTry => ⟨false, none, ["not implemented (try)"]⟩
  | .tkTuple => expr_tuple o a
  | .tkArray => ⟨false, none, ["not implemented (array)"]⟩
  | .tkObject => ⟨false, none, ["not implemented (object)"]⟩
  | .tkReference => expr_reference o ctx a
  | .tkThis => expr_this o ctx a
  | .tkInt => expr_literal o a "IntLiteral"
  | .tkFloat => expr_literal o a "FloatLiteral"
  | .tkString => expr_literal o a "String"
  | .tkError => expr_error ctx a
  | _ => ⟨true, none, []⟩

/-- Apply an `ExprResult` to the node it was computed for: perform the
recorded `ast_settype`, if any. -/
def applyResult (a : Ast) (r : ExprResult) : Ast :=
  match r.setType with
  | none => a
  | some v => ast_settype a v

mutual
/-- Erase every attached type in a tree (the pass only ever writes the
`typ` slots, so this is the walker-invariant skeleton of a node). -/
def stripTypes : Ast → Ast
  | .node i cs _ nm iv ln ps => .node i (stripList cs) none nm iv ln ps

/-- `stripTypes` on a child list -/
def stripList : List Ast → List Ast
  | [] => []
  | c :: cs => stripTypes c :: stripList cs
end

/-- The context for the `i`-th child of `parent`: the parent kind, whether a
next sibling exists, and the enclosing-of-kind queries updated exactly where
the walk crosses a loop, a method body (child 6 of `NEW`/`BE`/`FUN`) or a
type declaration.  The stored enclosing nodes are kept with type slots
erased: `type_expr` only reads kind tags, names and the (never-retyped)
signature children from them, on which `stripTypes` is the identity for any
well-formed program. -/
def childCtx (ctx : Ctx) (parent : Ast) (i : Nat) (hasNext : Bool) : Ctx :=
  { lookup := ctx.lookup
    recvCap := ctx.recvCap
    parentId := ast_id parent
    hasNextSibling := hasNext
    inLoop := ctx.inLoop ||
      decide (ast_id parent = .tkWhile) || decide (ast_id parent = .tkRepeat)
    enclMethod :=
      if (ast_id parent = .tkNew ∨ ast_id parent = .tkBe ∨
          ast_id parent = .tkFun) ∧ i = 6
      then some (stripTypes parent) else ctx.enclMethod
    enclType :=
      if ast_id parent = .tkClass ∨ ast_id parent = .tkActor ∨
         ast_id parent = .tkTrait ∨ ast_id parent = .tkType
      then some (stripTypes parent) else ctx.enclType }

mutual
/-- Post-order walk of a tree applying `type_expr` at every node (the
`ast_visit` driver with `type_expr` as the post callback): children first,
then the node itself on the rebuilt tree.  Returns the retyped tree, or
`none` as soon as any node reported `AST_FATAL`, together with the
diagnostics emitted in order. -/
def walk (o : Oracle) (ctx : Ctx) (a : Ast) : Option Ast × List String :=
  match a with
  | .node i cs ty nm iv ln ps =>
    match walkKids o ctx (.node i cs ty nm iv ln ps) 0 cs with
    | (none, ds) => (none, ds)
    | (some cs2, ds) =>
      let n2 : Ast := .node i cs2 ty nm iv ln ps
      let r := type_expr o ctx n2
      if r.ok then (some (applyResult n2 r), ds ++ r.diags)
      else (none, ds ++ r.diags)

/-- Walk the children of `parent` starting at child index `i`. -/
def walkKids (o : Oracle) (ctx : Ctx) (parent : Ast) (i : Nat) :
    List Ast → Option (List Ast) × List String
  | [] => (some [], [])
  | c :: rest =>
    match walk o (childCtx ctx parent i (!rest.isEmpty)) c with
    | (none, ds) => (none, ds)
    | (some c2, ds) =>
      match walkKids o ctx parent (i + 1) rest with
      | (none, ds2) => (none, ds ++ ds2)
      | (some rest2, ds2) => (some (c2 :: rest2), ds ++ ds2)
end

mutual
/-- structural equality on AST nodes, used to build concrete subtype
oracles for witnesses -/
def astBeq : Ast → Ast → Bool
  | .node i1 cs1 t1 n1 v1 l1 p1, .node i2 cs2 t2 n2 v2 l2 p2 =>
    decide (i1 = i2) && astListBeq cs1 cs2 && astOptBeq t1 t2 &&
    decide (n1 = n2) && decide (v1 = v2) && decide (l1 = l2) && decide (p1 = p2)

/-- `astBeq` on child lists -/
def astListBeq : List Ast → List Ast → Bool
  | [], [] => true
  | c :: cs, d :: ds => astBeq c d && astListBeq cs ds
  | _, _ => false

/-- `astBeq` on optional nodes -/
def astOptBeq : Option Ast → Option Ast → Bool
  | none, none => true
  | some a, some b => astBeq a b
  | _, _ => false
end

/-- A concrete oracle for witnesses: subtyping and type equality are
structural equality, nominal construction always succeeds, every capability
is a subcapability of every other. -/
def cOracle : Oracle :=
  { isSub := astOptBeq
    isEq := astOptBeq
    nomBuiltin := fun nm => some (.node .tkNominal [] none nm 0 0 0)
    nomType := fun _ nm => some (.node .tkNominal [] none nm 0 0 0)
    pkgGet := fun _ _ => none
    capForFun := fun _ => 0
    capSubCap := fun _ _ => true }

/-- A concrete top-level context for witnesses. -/
def cCtx : Ctx :=
  { lookup := fun _ => none
    recvCap := 0
    parentId := .tkNone
    hasNextSibling := false
    inLoop := false
    enclMethod := none
    enclType := none }

/-- the child loop of `is_lvalue` is the pointwise condition -/
theorem lvalue_list_iff (cs : List Ast) :
    lvalue_list cs = true ↔ ∀ c ∈ cs, is_lvalue c = true := by
  induction cs with
  | nil => simp [lvalue_list]
  | cons c cs ih =>
    simp [lvalue_list, Bool.and_eq_true, ih]

/-- the l-value classifier, characterised:  a `REFERENCE`, a `DOT`, or a
`TUPLE` all of whose elements are l-values (vacuously so for a childless
tuple) -/
theorem is_lvalue_iff (b : Ast) :
    is_lvalue b = true ↔
      (ast_id b = .tkReference ∨ ast_id b = .tkDot ∨
       (ast_id b = .tkTuple ∧ ∀ c ∈ ast_children b, is_lvalue c = true)) := by
  cases b with
  | node i cs ty nm iv ln ps =>
    cases i <;>
      simp [is_lvalue, ast_id, ast_children, lvalue_list_iff]

/-- concrete nominal type used by witnesses -/
def nomA : Ast := .node .tkNominal [] none "A" 0 0 0

/-- the `Bool` nominal produced by `cOracle.nomBuiltin` -/
def boolNom : Ast := .node .tkNominal [] none "Bool" 0 0 0

/-- the `None` nominal produced by `cOracle.nomBuiltin` -/
def nomNone : Ast := .node .tkNominal [] none "None" 0 0 0

/-- a typed reference, for witnesses -/
def refX : Ast := .node .tkReference [] (some nomA) "x" 0 0 0

/-- a second typed reference, for witnesses -/
def refY : Ast := .node .tkReference [] (some nomA) "y" 0 0 0

/-- `x = y`, for witnesses -/
def assignNode : Ast := .node .tkAssign [refX, refY] none "" 0 0 0

/-- C10: for an `ASSIGN` node with typed children the pass first demands an
l-value on the left (a `REFERENCE`, a `DOT`, or a `TUPLE` all of whose
elements are l-values, vacuously including a childless `TUPLE`), failing
with "left side must be something that can be assigned to"; then that the
right type is a subtype of the left type, failing with "right side must be
a subtype of left side"; and on success attaches the left side's type. -/
theorem C10_assign (o : Oracle) (ctx : Ctx) (a left right lt rt : Ast)
    (h0 : ast_id a = .tkAssign)
    (h1 : ast_childidx a 0 = some left) (h2 : ast_childidx a 1 = some right)
    (hl : ast_type left = some lt) (hr : ast_type right = some rt) :
    (is_lvalue left = false →
      type_expr o ctx a =
        ⟨false, none, ["left side must be something that can be assigned to"]⟩) ∧
    (is_lvalue left = true → o.isSub (some rt) (some lt) = false →
      type_expr o ctx a =
        ⟨false, none, ["right side must be a subtype of left side"]⟩) ∧
    (is_lvalue left = true → o.isSub (some rt) (some lt) = true →
      type_expr o ctx a = ⟨true, some (some lt), []⟩) ∧
    (∀ b : Ast, is_lvalue b = true ↔
      (ast_id b = .tkReference ∨ ast_id b = .tkDot ∨
       (ast_id b = .tkTuple ∧ ∀ c ∈ ast_children b, is_lvalue c = true))) := by
  cases a with
  | node i cs ty nm iv ln ps =>
    simp only [ast_id] at h0
    subst h0
    refine ⟨?_, ?_, ?_, fun b => is_lvalue_iff b⟩
    · intro hlv
      simp [type_expr, ast_id, expr_assign, h1, h2, hl, hr, hlv]
    · intro hlv hsub
      simp [type_expr, ast_id, expr_assign, h1, h2, hl, hr, hlv, hsub]
    · intro hlv hsub
      simp [type_expr, ast_id, expr_assign, h1, h2, hl, hr, hlv, hsub]

/-- witness for C10 at a concrete accepted assignment -/
theorem C10_assign_witness :
    type_expr cOracle cCtx assignNode = ⟨true, some (some nomA), []⟩ := by
  exact (C10_assign cOracle cCtx assignNode refX refY nomA nomA rfl rfl rfl
    rfl rfl).2.2.1 rfl rfl

/-- `expr_order` and `expr_compare` have literally the same body in the
source (up to the pending Comparable/Ordered TODO). -/
theorem expr_order_eq_compare : expr_order = expr_compare := rfl

/-- behaviour of `expr_compare` on a two-child node -/
theorem expr_compare_spec (o : Oracle) (a left right : Ast) (boolT : Ast)
    (h1 : ast_childidx a 0 = some left) (h2 : ast_childidx a 1 = some right)
    (hB : o.nomBuiltin "Bool" = some boolT) :
    ((expr_compare o a).ok = true →
      (expr_compare o a).setType = some (some boolT)) ∧
    (type_arithmetic o left = none → type_arithmetic o right = none →
      ((expr_compare o a).ok = true ↔
        o.isSub (ast_type right) (ast_type left) = true) ∧
      (o.isSub (ast_type right) (ast_type left) = false →
        expr_compare o a =
          ⟨false, none, ["right side must be a subtype of left side"]⟩)) := by
  constructor
  · intro hok
    cases hsup : type_super o (type_arithmetic o left) (type_arithmetic o right) with
    | some t => simp [expr_compare, h1, h2, hsup, hB]
    | none =>
      cases hs : o.isSub (ast_type right) (ast_type left) with
      | true => simp [expr_compare, h1, h2, hsup, hs, hB]
      | false => simp [expr_compare, h1, h2, hsup, hs] at hok
  · intro hla hra
    have hsup : type_super o (type_arithmetic o left) (type_arithmetic o right)
        = none := by
      simp [hla, hra, type_super]
    cases hs : o.isSub (ast_type right) (ast_type left) with
    | true => simp [expr_compare, h1, h2, hsup, hs]
    | false => simp [expr_compare, h1, h2, hsup, hs]

/-- C7: for a comparison (`==`, `!=`) or order (`<`, `<=`, `>=`, `>`) node,
any accepted outcome attaches the `Bool` nominal; and when both operands
fail the arithmetic-membership probe the node is accepted exactly when the
right type is a subtype of the left type, the diagnostic "right side must
be a subtype of left side" being emitted otherwise. -/
theorem C7_compare_order (o : Oracle) (ctx : Ctx) (a left right boolT : Ast)
    (hk : ast_id a = .tkEq ∨ ast_id a = .tkNe ∨ ast_id a = .tkLt ∨
          ast_id a = .tkLe ∨ ast_id a = .tkGe ∨ ast_id a = .tkGt)
    (h1 : ast_childidx a 0 = some left) (h2 : ast_childidx a 1 = some right)
    (hB : o.nomBuiltin "Bool" = some boolT) :
    ((type_expr o ctx a).ok = true →
      (type_expr o ctx a).setType = some (some boolT)) ∧
    (type_arithmetic o left = none → type_arithmetic o right = none →
      (((type_expr o ctx a).ok = true) ↔
        o.isSub (ast_type right) (ast_type left) = true) ∧
      (o.isSub (ast_type right) (ast_type left) = false →
        type_expr o ctx a =
          ⟨false, none, ["right side must be a subtype of left side"]⟩)) := by
  have hd : type_expr o ctx a = expr_compare o a := by
    cases a with
    | node i cs ty nm iv ln ps =>
      simp only [ast_id] at hk
      rcases hk with h | h | h | h | h | h <;> subst h <;>
        simp [type_expr, ast_id, expr_order_eq_compare]
  rw [hd]
  exact expr_compare_spec o a left right boolT h1 h2 hB

/-- `x == y`, for witnesses -/
def eqNode : Ast := .node .tkEq [refX, refY] none "" 0 0 0

/-- witness for C7: a concrete accepted comparison with the fallback
subtype path -/
theorem C7_compare_order_witness :
    (type_expr cOracle cCtx eqNode).ok = true ∧
    (type_expr cOracle cCtx eqNode).setType = some (some boolNom) := by
  have h := C7_compare_order cOracle cCtx eqNode refX refY boolNom
    (Or.inl rfl) rfl rfl rfl
  have hok : (type_expr cOracle cCtx eqNode).ok = true :=
    ((h.2 rfl rfl).1).mpr rfl
  exact ⟨hok, h.1 hok⟩

/-- C8: an `IF` node whose condition passes the bool-membership probe is
accepted with type `type_union(thenType, elseType)`, where `elseType` is
the `None` nominal when the else branch is absent; and `type_union` yields
the join when one side is a subtype of the other, and otherwise a fresh
`UNIONTYPE` whose left child is the left operand. -/
theorem C8_if_union (o : Oracle) (ctx : Ctx) (a cond left right : Ast)
    (h0 : ast_id a = .tkIf)
    (h1 : ast_childidx a 0 = some cond) (h2 : ast_childidx a 1 = some left)
    (h3 : ast_childidx a 2 = some right)
    (hc : (type_bool o cond).isSome = true) :
    (type_expr o ctx a).ok = true ∧
    (type_expr o ctx a).setType =
      some (type_union o a (ast_type left)
        (if ast_id right = .tkNone then o.nomBuiltin "None"
         else ast_type right)) ∧
    (∀ (L R : Ast) (lT rT : Option Ast), lT = some L → rT = some R →
      (o.isSub (some L) (some R) = true → type_union o a lT rT = some R) ∧
      (o.isSub (some L) (some R) = false → o.isSub (some R) (some L) = true →
        type_union o a lT rT = some L) ∧
      (o.isSub (some L) (some R) = false → o.isSub (some R) (some L) = false →
        type_union o a lT rT =
          some (.node .tkUnionType [L, R] none "" 0 (ast_line a) (ast_pos a)))) := by
  cases a with
  | node i cs ty nm iv ln ps =>
    simp only [ast_id] at h0
    subst h0
    refine ⟨?_, ?_, ?_⟩
    · cases htb : type_bool o cond with
      | none => rw [htb] at hc; simp at hc
      | some t => simp [type_expr, ast_id, expr_if, h1, h2, h3, htb]
    · cases htb : type_bool o cond with
      | none => rw [htb] at hc; simp at hc
      | some t => simp [type_expr, ast_id, expr_if, h1, h2, h3, htb]
    · intro L R lT rT hlT hrT
      subst hlT; subst hrT
      refine ⟨?_, ?_, ?_⟩
      · intro hs; simp [type_union, type_super, hs]
      · intro hs1 hs2; simp [type_union, type_super, hs1, hs2]
      · intro hs1 hs2
        simp [type_union, type_super, hs1, hs2, ast_line, ast_pos]

/-- a `Bool`-typed reference, for witnesses -/
def condB : Ast := .node .tkReference [] (some boolNom) "c" 0 0 0

/-- an absent else branch -/
def noneNode : Ast := .node .tkNone [] none "" 0 0 0

/-- `if c then x`, for witnesses -/
def ifNode : Ast := .node .tkIf [condB, refX, noneNode] none "" 0 0 0

/-- witness for C8: a concrete `if` without else, typed as
`UNIONTYPE(A, None)` -/
theorem C8_if_union_witness :
    (type_expr cOracle cCtx ifNode).ok = true ∧
    (type_expr cOracle cCtx ifNode).setType =
      some (some (Ast.node .tkUnionType [nomA, nomNone] none "" 0 0 0)) := by
  have h := C8_if_union cOracle cCtx ifNode condB refX noneNode
    rfl rfl rfl rfl rfl
  refine ⟨h.1, ?_⟩
  have h3 := (h.2.2 nomA nomNone (ast_type refX) (cOracle.nomBuiltin "None")
    rfl rfl).2.2 rfl rfl
  rw [h.2.1]
  simpa [ifNode, noneNode, ast_id] using h3

/-- the bare `ERROR` marker at position (0,0) -/
def errT : Ast := .node .tkError [] none "" 0 0 0

/-- a may-error child: a node whose attached type is the bare marker -/
def errChild : Ast := .node .tkReference [] (some errT) "e" 0 0 0

/-- a one-element sequence whose only (hence last) child may error -/
def seqErr : Ast := .node .tkSeq [errChild] none "" 0 0 0

/-- counterexample to C3: in `seqErr` a child's type is a supertype of
`ERROR`, yet the attached type is the bare `ERROR` marker (the join
computed by `type_union`), not `UNIONTYPE(lastType, ERROR)` as the claim
demands. -/
theorem C3_counterexample :
    cOracle.isSub (some (ast_from seqErr .tkError)) (ast_type errChild) = true ∧
    (type_expr cOracle cCtx seqErr).setType = some (some errT) ∧
    some (some errT) ≠
      some (some (Ast.node .tkUnionType [errT, ast_from seqErr .tkError]
        none "" 0 0 0)) := by
  refine ⟨rfl, rfl, ?_⟩
  intro h
  simp [errT, Ast.node.injEq] at h

/-- C3 (amended): a non-empty `SEQ` with typed children is always accepted;
its attached type is the last child's type when no child may error, and
otherwise `type_union(lastType, ERROR)`: the bare marker itself when
`lastType <: ERROR`, `lastType` when `ERROR <: lastType`, and only in the
remaining case the fresh `UNIONTYPE(lastType, ERROR)`. -/
theorem C3_seq_amended (o : Oracle) (ctx : Ctx) (a : Ast) (cs : List Ast)
    (hk : ast_id a = .tkSeq) (hcs : ast_children a = cs) (hne : cs ≠ [])
    (hall : ∀ c ∈ cs, (ast_type c).isSome)
    (lastc L : Ast) (hlast : cs.getLast? = some lastc)
    (hL : ast_type lastc = some L) :
    (type_expr o ctx a).ok = true ∧
    (cs.any (fun c => o.isSub (some (ast_from a .tkError)) (ast_type c)) = false →
      (type_expr o ctx a).setType = some (some L)) ∧
    (cs.any (fun c => o.isSub (some (ast_from a .tkError)) (ast_type c)) = true →
      o.isSub (some L) (some (ast_from a .tkError)) = true →
      (type_expr o ctx a).setType = some (some (ast_from a .tkError))) ∧
    (cs.any (fun c => o.isSub (some (ast_from a .tkError)) (ast_type c)) = true →
      o.isSub (some L) (some (ast_from a .tkError)) = false →
      o.isSub (some (ast_from a .tkError)) (some L) = true →
      (type_expr o ctx a).setType = some (some L)) ∧
    (cs.any (fun c => o.isSub (some (ast_from a .tkError)) (ast_type c)) = true →
      o.isSub (some L) (some (ast_from a .tkError)) = false →
      o.isSub (some (ast_from a .tkError)) (some L) = false →
      (type_expr o ctx a).setType =
        some (some (.node .tkUnionType [L, ast_from a .tkError]
          none "" 0 (ast_line a) (ast_pos a)))) := by
  cases a with
  | node i cs0 ty nm iv ln ps =>
    simp only [ast_id] at hk
    subst hk
    simp only [ast_children] at hcs
    subst hcs
    cases cs0 with
    | nil => exact absurd rfl hne
    | cons c rest =>
      refine ⟨?_, ?_, ?_, ?_, ?_⟩
      · cases hce : (c :: rest).any
            (fun x => o.isSub (some (ast_from (Ast.node .tkSeq (c :: rest) ty nm iv ln ps) .tkError)) (ast_type x)) <;>
          simp [type_expr, ast_id, expr_seq, ast_children, hce, hlast]
      · intro hce
        simp [type_expr, ast_id, expr_seq, ast_children, hce, hlast, hL]
      · intro hce hs
        simp [type_expr, ast_id, expr_seq, ast_children, hce, hlast, hL,
          type_union, type_super, hs]
      · intro hce hs1 hs2
        simp [type_expr, ast_id, expr_seq, ast_children, hce, hlast, hL,
          type_union, type_super, hs1, hs2]
      · intro hce hs1 hs2
        simp [type_expr, ast_id, expr_seq, ast_children, hce, hlast, hL,
          type_union, type_super, hs1, hs2, ast_line, ast_pos]

/-- a two-element sequence `{ e; x }` whose first child may error -/
def seqMix : Ast := .node .tkSeq [errChild, refX] none "" 0 0 0

/-- witness for C3 (amended): a sequence with a may-error child and a last
type unrelated to `ERROR` gets the fresh `UNIONTYPE(lastType, ERROR)`. -/
theorem C3_seq_amended_witness :
    (type_expr cOracle cCtx seqMix).setType =
      some (some (Ast.node .tkUnionType [nomA, ast_from seqMix .tkError]
        none "" 0 0 0)) := by
  have h := C3_seq_amended cOracle cCtx seqMix [errChild, refX]
    rfl rfl (by simp) (by decide) refX nomA rfl rfl
  exact h.2.2.2.2 rfl rfl rfl

/-- Stated from the spec side for comparison: the right-cons `TUPLETYPE`
whose elements in order are `init` and whose final (bare) tail is `last`,
built by a right fold. -/
def specTupleSpine (a : Ast) (init : List Ast) (last : Ast) : Ast :=
  init.foldr
    (fun t acc =>
      .node .tkTupleType [t, acc] none "" 0 (ast_line a) (ast_pos a))
    last

/-- unfolding `tuple_spine` on a cons with a non-empty tail -/
theorem tuple_spine_cons (a t : Ast) (l : List Ast) (h : l ≠ []) :
    tuple_spine a (t :: l) =
      .node .tkTupleType [t, tuple_spine a l] none "" 0 (ast_line a) (ast_pos a) := by
  cases l with
  | nil => exact absurd rfl h
  | cons x xs => rfl

/-- the loop of `expr_tuple` builds exactly the spec-side right fold -/
theorem tuple_spine_append (a last : Ast) (init : List Ast) :
    tuple_spine a (init ++ [last]) = specTupleSpine a init last := by
  induction init with
  | nil => rfl
  | cons t ts ih =>
    rw [List.cons_append, tuple_spine_cons a t (ts ++ [last]) (by simp), ih]
    rfl

/-- C5: a `TUPLE` with a single child types as that child; with two or more
typed children it types as the right-cons `TUPLETYPE` whose elements in
order are the children's types, the final tail being the last child's bare
type (the right fold `specTupleSpine`). -/
theorem C5_tuple (o : Oracle) (ctx : Ctx) (a : Ast)
    (hk : ast_id a = .tkTuple) :
    (∀ c, ast_children a = [c] →
      type_expr o ctx a = ⟨true, some (ast_type c), []⟩) ∧
    (∀ cs ts init lastT, ast_children a = cs → 2 ≤ cs.length →
      cs.mapM ast_type = some ts → ts = init ++ [lastT] →
      type_expr o ctx a =
        ⟨true, some (some (specTupleSpine a init lastT)), []⟩) := by
  cases a with
  | node i cs0 ty nm iv ln ps =>
    simp only [ast_id] at hk
    subst hk
    constructor
    · intro c hc
      simp only [ast_children] at hc
      subst hc
      simp [type_expr, ast_id, expr_tuple, ast_children]
    · intro cs ts init lastT hcs hlen hmap hts
      simp only [ast_children] at hcs
      subst hcs
      cases cs0 with
      | nil => simp at hlen
      | cons c rest =>
        cases rest with
        | nil => simp at hlen
        | cons c2 r2 =>
          rw [← tuple_spine_append _ lastT init, ← hts]
          simp only [List.mapM] at hmap
          simp [type_expr, ast_id, expr_tuple, ast_children, hmap]

/-- `(x, c)`, for witnesses -/
def tupNode : Ast := .node .tkTuple [refX, condB] none "" 0 0 0

/-- witness for C5: a concrete pair types as a two-node spine with a bare
tail -/
theorem C5_tuple_witness :
    type_expr cOracle cCtx tupNode =
      ⟨true, some (some (Ast.node .tkTupleType [nomA, boolNom]
        none "" 0 0 0)), []⟩ := by
  exact (C5_tuple cOracle cCtx tupNode rfl).2 [refX, condB] [nomA, boolNom]
    [nomA] boolNom rfl (by decide) rfl rfl

/-- a child is smaller than its node (for recursion through `ast_childidx`) -/
theorem sizeOf_childidx (T c : Ast) (i : Nat)
    (h : ast_childidx T i = some c) : sizeOf c < sizeOf T := by
  cases T with
  | node t cs ty nm iv ln ps =>
    simp only [ast_childidx, ast_children] at h
    have hm : c ∈ cs := by
      have h2 := List.getElem?_eq_some.mp h
      rcases h2 with ⟨hlt, hEq⟩
      exact hEq ▸ List.getElem_mem hlt
    have := List.sizeOf_lt_of_mem hm
    simp only [Ast.node.sizeOf_spec]
    omega

/-- Stated from the spec side for comparison: a well-formed right-cons
spine is a binary `TUPLETYPE` whose right child, when itself a
`TUPLETYPE`, is again well-formed. -/
def wfSpine : Ast → Bool
  | .node .tkTupleType [_, tl] _ _ _ _ _ =>
    if ast_id tl = .tkTupleType then wfSpine tl else true
  | _ => false

/-- Stated from the spec side for comparison: the element types of a
right-cons spine, read left to right, the final tail being the bare
element. -/
def spineElems : Ast → List Ast
  | .node .tkTupleType [h, tl] _ _ _ _ _ =>
    if ast_id tl = .tkTupleType then h :: spineElems tl else [h, tl]
  | _ => []

/-- `tuple_index` returns exactly the in-range element of the spine and
nothing beyond it -/
theorem tuple_index_spineElems (T : Ast) (hw : wfSpine T = true) :
    ∀ i, tuple_index T i = (spineElems T)[i]? := by
  induction T using wfSpine.induct with
  | case1 ta tl ty nm iv ln ps htt2 ih =>
    simp only [wfSpine, htt2, if_true, reduceIte] at hw
    have hsp : spineElems (Ast.node .tkTupleType [ta, tl] ty nm iv ln ps) =
        ta :: spineElems tl := by
      simp [spineElems, htt2]
    intro i
    match i with
    | 0 =>
      rw [tuple_index, hsp]
      simp [ast_child, ast_children]
    | 1 =>
      rw [tuple_index, hsp]
      have h0 := ih hw 0
      rw [tuple_index] at h0
      simp only [ast_childidx, ast_children] at *
      simp [htt2] at h0 ⊢
      exact h0
    | (n + 2) =>
      rw [tuple_index, hsp]
      have hn := ih hw (n + 1)
      simp only [ast_childidx, ast_children] at *
      simp [htt2, show n + 2 > 1 by omega, show n + 2 - 1 = n + 1 by omega]
      exact hn
  | case2 ta tl ty nm iv ln ps htt2 =>
    have hsp : spineElems (Ast.node .tkTupleType [ta, tl] ty nm iv ln ps) =
        [ta, tl] := by
      simp [spineElems, htt2]
    intro i
    match i with
    | 0 =>
      rw [tuple_index, hsp]
      simp [ast_child, ast_children]
    | 1 =>
      rw [tuple_index, hsp]
      simp [ast_childidx, ast_children, htt2]
    | (n + 2) =>
      rw [tuple_index, hsp]
      simp [ast_childidx, ast_children, htt2, show n + 2 > 1 by omega]
  | case3 T hno =>
    intro i
    exfalso
    rw [wfSpine.eq_def] at hw
    split at hw
    · exact hno _ _ _ _ _ _ _ rfl
    · simp at hw

/-- C6: `DOT` with an integer right child on a left child typed as a
2-element `TUPLETYPE(ta, tb)` attaches `ta` at index 0 and `tb` at index 1,
and fails with "tuple index is out of bounds" at index 2; in general
`tuple_index` on a well-formed right-cons spine returns exactly the i-th
element type, and nothing when the spine ends before index i. -/
theorem C6_dot_tuple_index (o : Oracle) (ctx : Ctx)
    (a left right T ta tb : Ast)
    (hk : ast_id a = .tkDot)
    (h1 : ast_childidx a 0 = some left) (h2 : ast_childidx a 1 = some right)
    (hr : ast_id right = .tkInt) (hT : ast_type left = some T)
    (hch : ast_children T = [ta, tb]) (hTT : ast_id T = .tkTupleType)
    (htb : ast_id tb ≠ .tkTupleType) :
    (ast_int right = 0 → type_expr o ctx a = ⟨true, some (some ta), []⟩) ∧
    (ast_int right = 1 → type_expr o ctx a = ⟨true, some (some tb), []⟩) ∧
    (ast_int right = 2 →
      type_expr o ctx a = ⟨false, none, ["tuple index is out of bounds"]⟩) ∧
    (∀ S, wfSpine S = true → ∀ i, tuple_index S i = (spineElems S)[i]?) := by
  have hdot : ∀ j, ast_int right = j →
      type_expr o ctx a =
        (match tuple_index T j with
         | none => ⟨false, none, ["tuple index is out of bounds"]⟩
         | some ty => ⟨true, some (some ty), []⟩) := by
    intro j hj
    cases a with
    | node i0 cs ty nm iv ln ps =>
      simp only [ast_id] at hk
      subst hk
      simp only [ast_id] at hr hTT
      simp [type_expr, ast_id, expr_dot, h1, h2, hr, hT, hTT, hj]
  refine ⟨?_, ?_, ?_, tuple_index_spineElems⟩
  · intro hj
    rw [hdot 0 hj, tuple_index]
    simp [ast_child, hch, List.getElem?_eq_getElem]
  · intro hj
    rw [hdot 1 hj, tuple_index]
    simp [ast_childidx, hch, htb]
  · intro hj
    rw [hdot 2 hj, tuple_index]
    simp [ast_childidx, hch, htb]

/-- `(A, Bool)` as a tuple type -/
def tupT2 : Ast := .node .tkTupleType [nomA, boolNom] none "" 0 0 0

/-- a reference typed with a 2-element tuple type -/
def refT : Ast := .node .tkReference [] (some tupT2) "t" 0 0 0

/-- `t.1`, for witnesses -/
def dotNode1 : Ast :=
  .node .tkDot [refT, .node .tkInt [] none "" 1 0 0] none "" 0 0 0

/-- witness for C6: indexing a concrete 2-tuple at position 1 yields the
right element -/
theorem C6_dot_tuple_index_witness :
    type_expr cOracle cCtx dotNode1 = ⟨true, some (some boolNom), []⟩ := by
  exact (C6_dot_tuple_index cOracle cCtx dotNode1 refT
    (.node .tkInt [] none "" 1 0 0) tupT2 nomA boolNom
    rfl rfl rfl rfl rfl rfl rfl (by decide)).2.1 rfl

/-- C2: a non-trait, non-partial `FUN` with a declared result `R` and a
body typed `B` is accepted exactly when `B` equals `R` under `is_eqtype`
and the `ERROR` marker is not a subtype of `B`.  The two hypotheses on the
oracle are coherence facts of the external subtype engine: type equality
implies subtyping, and the bare marker is a subtype of an `ERROR`-kinded
type. -/
theorem C2_fun_accept (o : Oracle) (ctx : Ctx) (a R canerr body B D : Ast)
    (hk : ast_id a = .tkFun)
    (h4 : ast_childidx a 4 = some R) (hRn : ast_id R ≠ .tkNone)
    (h5 : ast_childidx a 5 = some canerr) (hq : ast_id canerr ≠ .tkQuestion)
    (h6 : ast_childidx a 6 = some body) (hbn : ast_id body ≠ .tkNone)
    (hB : ast_type body = some B)
    (hD : ctx.enclType = some D) (hDt : ast_id D ≠ .tkTrait)
    (hco : o.isEq (some B) (some R) = true → o.isSub (some B) (some R) = true)
    (herr : ast_id B = .tkError →
      o.isSub (some (ast_from a .tkError)) (some B) = true) :
    (type_expr o ctx a).ok = true ↔
      (o.isEq (some B) (some R) = true ∧
       o.isSub (some (ast_from a .tkError)) (some B) = false) := by
  cases a with
  | node i0 cs ty nm iv ln ps =>
    simp only [ast_id] at hk
    subst hk
    simp only [ast_id] at hRn hq hbn hDt
    by_cases hBe : ast_id B = .tkError
    · have hs := herr hBe
      simp only [ast_id] at hBe
      simp [type_expr, ast_id, expr_fun, h4, h5, h6, hbn, hD, hB, hBe, hs]
    · cases hse : o.isSub (some (ast_from (Ast.node .tkFun cs ty nm iv ln ps) .tkError)) (some B) with
      | true =>
        simp only [ast_id] at hBe
        simp [type_expr, ast_id, expr_fun, h4, h5, h6, hbn, hD, hB, hBe, hq,
          hse, hRn, hDt]
      | false =>
        simp only [ast_id] at hBe
        cases heq : o.isEq (some B) (some R) with
        | true =>
          have hsub := hco heq
          simp [type_expr, ast_id, expr_fun, h4, h5, h6, hbn, hD, hB, hBe, hq,
            hse, hRn, hDt, heq, hsub]
        | false =>
          simp [type_expr, ast_id, expr_fun, h4, h5, h6, hbn, hD, hB, hBe, hq,
            hse, hRn, hDt, heq]

/-- a class node, for witnesses -/
def classD : Ast := .node .tkClass [] none "C" 0 0 0

/-- a context inside a (non-trait) class, for witnesses -/
def ctxC : Ctx :=
  { lookup := fun _ => none
    recvCap := 0
    parentId := .tkNone
    hasNextSibling := false
    inLoop := false
    enclMethod := none
    enclType := some classD }

/-- a `SEQ` body already typed `A`, for witnesses -/
def bodyA : Ast := .node .tkSeq [refX] (some nomA) "" 0 0 0

/-- `fun f(): A => body` with no `?` marker, for witnesses -/
def funNode : Ast :=
  .node .tkFun
    [noneNode, .node .tkId [] none "f" 0 0 0, noneNode, noneNode,
     nomA, noneNode, bodyA]
    none "" 0 0 0

/-- witness for C2: a concrete non-partial function whose body type equals
the declared result is accepted -/
theorem C2_fun_accept_witness :
    (type_expr cOracle ctxC funNode).ok = true := by
  exact (C2_fun_accept cOracle ctxC funNode nomA noneNode bodyA nomA classD
    rfl rfl (by decide) rfl (by decide) rfl (by decide) rfl rfl (by decide)
    (fun _ => rfl) (by decide)).mpr ⟨rfl, rfl⟩

/-- a `None`-typed reference (a body of type `None`), for counterexamples -/
def refN : Ast := .node .tkReference [] (some nomNone) "n" 0 0 0

/-- `return n` with a `None`-typed body -/
def retNode : Ast := .node .tkReturn [refN] none "" 0 0 0

/-- a behaviour node (only its kind matters to `expr_return`) -/
def beNode : Ast := .node .tkBe [] none "" 0 0 0

/-- a context inside a behaviour body, for counterexamples -/
def ctxB : Ctx :=
  { lookup := fun _ => none
    recvCap := 0
    parentId := .tkSeq
    hasNextSibling := false
    inLoop := false
    enclMethod := some beNode
    enclType := none }

/-- `P.T` where the package `P` is not in scope -/
def dotPkg : Ast :=
  .node .tkDot
    [.node .tkReference [] none "P" 0 0 0, .node .tkId [] none "T" 0 0 0]
    none "" 0 0 0

/-- counterexample to C1, in two parts.  First, an accepted `return` inside
a behaviour: the dispatcher returns OK, attaches no type and emits no
diagnostic.  Second, a `DOT` whose untyped left side fails the package
lookup: the dispatcher returns FATAL without emitting any diagnostic
(src/pass/expr.c:408-411). -/
theorem C1_counterexample :
    type_expr cOracle ctxB retNode = ⟨true, none, []⟩ ∧
    type_expr cOracle cCtx dotPkg = ⟨false, none, []⟩ :=
  ⟨rfl, rfl⟩

/-- Shape conditions under which each dispatched component neither
dereferences `NULL` nor fails silently through an external lookup: the
children the component unconditionally reads exist, the child types it
unconditionally dereferences are present, `DOT` is restricted to member-by-
position (the by-name path fails silently when the package lookup misses),
and `REFERENCE` / `THIS` are excluded (their nominal construction and scope
lookups can fail silently).  Kinds the dispatcher does not handle are
excluded. -/
def wellShaped (ctx : Ctx) (a : Ast) : Bool :=
  match ast_id a with
  | .tkFvar | .tkFlet | .tkParam =>
    (ast_childidx a 1).isSome && (ast_childidx a 2).isSome
  | .tkNew | .tkBe | .tkFun =>
    match ast_childidx a 4, ast_childidx a 5, ast_childidx a 6 with
    | some _, some _, some body =>
      decide (ast_id body = .tkNone) ||
      (ctx.enclType.isSome && (ast_type body).isSome)
    | _, _, _ => false
  | .tkSeq => !(ast_children a).isEmpty
  | .tkVar | .tkLet => true
  | .tkContinue | .tkBreak => true
  | .tkReturn =>
    (ast_childidx a 0).isSome &&
    (match ctx.enclMethod with
     | none => true
     | some fn =>
       match ast_id fn with
       | .tkNew | .tkBe => true
       | .tkFun => (ast_childidx fn 4).isSome
       | _ => false)
  | .tkMultiply | .tkDivide | .tkMod | .tkPlus | .tkLshift | .tkRshift
  | .tkLt | .tkLe | .tkGe | .tkGt | .tkEq | .tkNe | .tkIs | .tkIsnt
  | .tkAnd | .tkXor | .tkOr | .tkAssign =>
    decide (2 ≤ (ast_children a).length)
  | .tkMinus | .tkNot => decide (1 ≤ (ast_children a).length)
  | .tkConsume => true
  | .tkDot =>
    match ast_childidx a 0, ast_childidx a 1 with
    | some _, some right => decide (ast_id right = .tkInt)
    | _, _ => false
  | .tkQualify => true
  | .tkCall =>
    match ast_childidx a 0 with
    | some left =>
      match ast_type left with
      | some t =>
        match ast_id t with
        | .tkNew | .tkBe | .tkFun | .tkUnionType | .tkIsectType | .tkNominal
        | .tkStructural | .tkArrow | .tkTupleType => true
        | _ => false
      | none => false
    | none => false
  | .tkIf => decide (3 ≤ (ast_children a).length)
  | .tkWhile => decide (1 ≤ (ast_children a).length)
  | .tkRepeat => decide (2 ≤ (ast_children a).length)
  | .tkFor | .tkTry => true
  | .tkTuple =>
    match ast_children a with
    | [] => false
    | [_] => true
    | cs => cs.all (fun c => (ast_type c).isSome)
  | .tkArray | .tkObject => true
  | .tkInt | .tkFloat | .tkString => true
  | .tkError => true
  | _ => false

/-- `type_int_or_bool` reports its diagnostic exactly when it fails -/
theorem type_int_or_bool_spec (o : Oracle) (a : Ast) :
    (∃ t, type_int_or_bool o a = (some t, [])) ∨
    type_int_or_bool o a = (none, ["expected Bool or an integer type"]) := by
  unfold type_int_or_bool
  cases type_bool o a <;> cases type_int o a <;> simp

/-- a component result that emits a diagnostic whenever it fails and writes
the type slot whenever it succeeds -/
def soundRes (r : ExprResult) : Prop :=
  (r.ok = false → r.diags ≠ []) ∧ (r.ok = true → r.setType.isSome)

theorem sound_field (o : Oracle) (a t i : Ast)
    (h1 : ast_childidx a 1 = some t) (h2 : ast_childidx a 2 = some i) :
    soundRes (expr_field o a) := by
  unfold soundRes expr_field
  simp only [h1, h2]
  repeat' split
  all_goals simp

theorem sound_seq (o : Oracle) (a : Ast) (h : ast_children a ≠ []) :
    soundRes (expr_seq o a) := by
  unfold soundRes expr_seq
  cases hcs : ast_children a with
  | nil => exact absurd hcs h
  | cons c rest =>
    simp only [hcs]
    repeat' split
    all_goals simp

theorem sound_continue (o : Oracle) (ctx : Ctx) (a : Ast) :
    soundRes (expr_continue o ctx a) := by
  unfold soundRes expr_continue
  repeat' split
  all_goals simp

theorem sound_return (o : Oracle) (ctx : Ctx) (a body : Ast)
    (h0 : ast_childidx a 0 = some body)
    (hm : match ctx.enclMethod with
          | none => True
          | some fn =>
            ast_id fn = .tkNew ∨ ast_id fn = .tkBe ∨
            (ast_id fn = .tkFun ∧ (ast_childidx fn 4).isSome)) :
    (expr_return o ctx a).ok = false → (expr_return o ctx a).diags ≠ [] := by
  unfold expr_return
  simp only [h0]
  cases hem : ctx.enclMethod with
  | none => simp [hem]
  | some fn =>
    rw [hem] at hm
    simp only [hem]
    rcases hm with hfn | hfn | ⟨hfn, hr⟩ <;> rw [hfn] <;>
      [skip; skip;
       (obtain ⟨r0, hr0⟩ := Option.isSome_iff_exists.mp hr; rw [hr0])] <;>
      (repeat' split) <;>
      simp_all

theorem sound_arith (o : Oracle) (a left right : Ast)
    (h1 : ast_childidx a 0 = some left) (h2 : ast_childidx a 1 = some right) :
    soundRes (expr_arithmetic o a) := by
  unfold soundRes expr_arithmetic
  simp only [h1, h2]
  split <;> simp

theorem sound_minus (o : Oracle) (a left : Ast)
    (h1 : ast_childidx a 0 = some left) :
    soundRes (expr_minus o a) := by
  unfold soundRes expr_minus
  simp only [h1]
  repeat' split
  all_goals simp

theorem sound_shift (o : Oracle) (a left right : Ast)
    (h1 : ast_childidx a 0 = some left) (h2 : ast_childidx a 1 = some right) :
    soundRes (expr_shift o a) := by
  unfold soundRes expr_shift
  simp only [h1, h2]
  split <;> simp

theorem sound_compare (o : Oracle) (a left right : Ast)
    (h1 : ast_childidx a 0 = some left) (h2 : ast_childidx a 1 = some right) :
    soundRes (expr_compare o a) := by
  unfold soundRes expr_compare
  simp only [h1, h2]
  repeat' split
  all_goals simp

theorem sound_identity (o : Oracle) (a left right : Ast)
    (h1 : ast_childidx a 0 = some left) (h2 : ast_childidx a 1 = some right)
    (hB : (o.nomBuiltin "Bool").isSome) :
    soundRes (expr_identity o a) := by
  obtain ⟨b, hb⟩ := Option.isSome_iff_exists.mp hB
  unfold soundRes expr_identity expr_literal
  simp only [h1, h2, hb]
  repeat' split
  all_goals simp

theorem sound_logical (o : Oracle) (a left right : Ast)
    (h1 : ast_childidx a 0 = some left) (h2 : ast_childidx a 1 = some right) :
    soundRes (expr_logical o a) := by
  unfold soundRes expr_logical
  simp only [h1, h2]
  split <;> simp

theorem sound_not (o : Oracle) (a child : Ast)
    (h1 : ast_childidx a 0 = some child) :
    soundRes (expr_not o a) := by
  unfold soundRes expr_not
  simp only [h1]
  rcases type_int_or_bool_spec o child with ⟨t, h⟩ | h <;> rw [h] <;> simp

theorem sound_assign (o : Oracle) (a left right : Ast)
    (h1 : ast_childidx a 0 = some left) (h2 : ast_childidx a 1 = some right) :
    soundRes (expr_assign o a) := by
  unfold soundRes expr_assign
  simp only [h1, h2]
  repeat' split
  all_goals simp

theorem sound_dot_int (o : Oracle) (ctx : Ctx) (a left right : Ast)
    (h1 : ast_childidx a 0 = some left) (h2 : ast_childidx a 1 = some right)
    (hr : ast_id right = .tkInt) :
    soundRes (expr_dot o ctx a) := by
  unfold soundRes expr_dot
  simp only [h1, h2, hr]
  repeat' split
  all_goals simp

theorem sound_call (o : Oracle) (ctx : Ctx) (a left t : Ast)
    (h1 : ast_childidx a 0 = some left) (ht : ast_type left = some t)
    (hk : ast_id t = .tkNew ∨ ast_id t = .tkBe ∨ ast_id t = .tkFun ∨
      ast_id t = .tkUnionType ∨ ast_id t = .tkIsectType ∨
      ast_id t = .tkNominal ∨ ast_id t = .tkStructural ∨
      ast_id t = .tkArrow ∨ ast_id t = .tkTupleType) :
    soundRes (expr_call o ctx a) := by
  unfold soundRes expr_call
  simp only [h1, ht]
  rcases hk with h | h | h | h | h | h | h | h | h <;> rw [h] <;>
    (repeat' split) <;> simp_all

theorem sound_if (o : Oracle) (a c l r : Ast)
    (h1 : ast_childidx a 0 = some c) (h2 : ast_childidx a 1 = some l)
    (h3 : ast_childidx a 2 = some r) :
    soundRes (expr_if o a) := by
  unfold soundRes expr_if
  simp only [h1, h2, h3]
  repeat' split
  all_goals simp

theorem sound_while (o : Oracle) (a c : Ast)
    (h1 : ast_childidx a 0 = some c) :
    soundRes (expr_while o a) := by
  unfold soundRes expr_while
  simp only [h1]
  split <;> simp

theorem sound_repeat (o : Oracle) (a b c : Ast)
    (h1 : ast_childidx a 0 = some b) (h2 : ast_childidx a 1 = some c) :
    soundRes (expr_repeat o a) := by
  unfold soundRes expr_repeat
  simp only [h1, h2]
  split <;> simp

theorem mapM_ast_type_isSome (cs : List Ast)
    (h : ∀ c ∈ cs, (ast_type c).isSome) :
    ∃ ts, cs.mapM ast_type = some ts := by
  induction cs with
  | nil => exact ⟨[], rfl⟩
  | cons c rest ih =>
    obtain ⟨t, ht⟩ := Option.isSome_iff_exists.mp (h c (by simp))
    obtain ⟨ts, hts⟩ := ih (fun x hx => h x (by simp [hx]))
    exact ⟨t :: ts, by rw [List.mapM_cons]; simp only [ht, hts]; rfl⟩

theorem sound_tuple (o : Oracle) (a : Ast)
    (h : match ast_children a with
         | [] => False
         | [_] => True
         | cs => ∀ c ∈ cs, (ast_type c).isSome) :
    soundRes (expr_tuple o a) := by
  unfold soundRes expr_tuple
  cases hcs : ast_children a with
  | nil => rw [hcs] at h; exact absurd h (by simp)
  | cons c rest =>
    cases rest with
    | nil => simp [hcs]
    | cons c2 r2 =>
      rw [hcs] at h
      simp only [hcs]
      obtain ⟨ts, hts⟩ := mapM_ast_type_isSome (c :: c2 :: r2) h
      simp only [hts]
      simp

theorem sound_error (ctx : Ctx) (a : Ast) :
    soundRes (expr_error ctx a) := by
  unfold soundRes expr_error
  split <;> simp

theorem sound_literal (o : Oracle) (a : Ast) (nm : String)
    (hB : (o.nomBuiltin nm).isSome) :
    soundRes (expr_literal o a nm) := by
  obtain ⟨b, hb⟩ := Option.isSome_iff_exists.mp hB
  unfold soundRes expr_literal
  simp [hb]

theorem sound_fun (o : Oracle) (ctx : Ctx) (a t0 ce body : Ast)
    (h4 : ast_childidx a 4 = some t0) (h5 : ast_childidx a 5 = some ce)
    (h6 : ast_childidx a 6 = some body)
    (hsh : ast_id body = .tkNone ∨
      (ctx.enclType.isSome ∧ (ast_type body).isSome)) :
    (expr_fun o ctx a).ok = false → (expr_fun o ctx a).diags ≠ [] := by
  unfold expr_fun
  simp only [h4, h5, h6]
  rcases hsh with hb | ⟨hD, hB⟩
  · simp [hb]
  · obtain ⟨D, hD2⟩ := Option.isSome_iff_exists.mp hD
    obtain ⟨B, hB2⟩ := Option.isSome_iff_exists.mp hB
    simp only [hD2, hB2]
    by_cases hbn : ast_id body = .tkNone
    · simp [hbn]
    · simp only [hbn, if_false]
      repeat' split
      all_goals simp_all

theorem soundRes_goal {r : ExprResult} (h : soundRes r) (P : Prop) :
    (r.ok = false → r.diags ≠ []) ∧ (r.ok = true → r.setType.isSome ∨ P) :=
  ⟨h.1, fun hk => Or.inl (h.2 hk)⟩

/-- C1 (amended): for every well-shaped node of a dispatched expression
kind — excluding `this`, `reference` and dot-by-name, whose components can
fail silently when an external lookup or nominal construction returns
nothing — and assuming builtin nominal construction succeeds: a FATAL
outcome always carries at least one diagnostic, and an accepted outcome
always writes the node's type slot unless the node is a `return` or a
method declaration (`NEW`/`BE`/`FUN`), which the pass deliberately leaves
untyped. -/
theorem C1_amended (o : Oracle) (ctx : Ctx) (a : Ast)
    (hW : wellShaped ctx a = true)
    (hB : ∀ s, (o.nomBuiltin s).isSome) :
    ((type_expr o ctx a).ok = false → (type_expr o ctx a).diags ≠ []) ∧
    ((type_expr o ctx a).ok = true →
      (type_expr o ctx a).setType.isSome ∨
      ast_id a = .tkReturn ∨ ast_id a = .tkNew ∨ ast_id a = .tkBe ∨
      ast_id a = .tkFun) := by
  cases a with
  | node i cs ty nm iv ln ps =>
    cases i <;> simp only [wellShaped, ast_id] at hW <;>
      simp only [type_expr, ast_id] <;>
      (try exact (Bool.false_ne_true hW).elim)
    case tkFvar | tkFlet | tkParam =>
      rw [Bool.and_eq_true, Option.isSome_iff_exists, Option.isSome_iff_exists]
        at hW
      obtain ⟨⟨t, h1⟩, ⟨i2, h2⟩⟩ := hW
      exact soundRes_goal (sound_field o _ t i2 h1 h2) _
    case tkNew | tkBe | tkFun =>
      cases h4 : ast_childidx (Ast.node _ cs ty nm iv ln ps) 4 <;> rw [h4] at hW
      case none => simp at hW
      case some t0 =>
      cases h5 : ast_childidx (Ast.node _ cs ty nm iv ln ps) 5 <;> rw [h5] at hW
      case none => simp at hW
      case some ce =>
      cases h6 : ast_childidx (Ast.node _ cs ty nm iv ln ps) 6 <;> rw [h6] at hW
      case none => simp at hW
      case some body =>
      simp only [Bool.or_eq_true, decide_eq_true_eq, Bool.and_eq_true] at hW
      have hsh : ast_id body = .tkNone ∨
          (ctx.enclType.isSome ∧ (ast_type body).isSome) := by
        rcases hW with h | ⟨h1, h2⟩
        · exact Or.inl h
        · exact Or.inr ⟨h1, h2⟩
      refine ⟨sound_fun o ctx _ t0 ce body h4 h5 h6 hsh, fun _ => ?_⟩
      · simp
    case tkSeq =>
      have hne : ast_children (Ast.node .tkSeq cs ty nm iv ln ps) ≠ [] := by
        simpa [ast_children] using hW
      exact soundRes_goal (sound_seq o _ hne) _
    case tkVar | tkLet =>
      exact ⟨fun _ => by simp, fun h => by simp at h⟩
    case tkContinue | tkBreak =>
      exact soundRes_goal (sound_continue o ctx _) _
    case tkReturn =>
      rw [Bool.and_eq_true, Option.isSome_iff_exists] at hW
      obtain ⟨⟨body, h0⟩, hm⟩ := hW
      refine ⟨?_, fun _ => by simp⟩
      refine sound_return o ctx _ body h0 ?_
      cases hem : ctx.enclMethod with
      | none => simp [hem]
      | some fn =>
        simp only [hem] at hm ⊢
        cases fn with
        | node fj fcs fty fnm fiv fln fps =>
          simp only [ast_id]
          cases fj <;> simp_all
    case tkMultiply | tkDivide | tkMod | tkPlus =>
      all_goals (
        cases cs with
        | nil => simp [ast_children] at hW
        | cons x t =>
          cases t with
          | nil => simp [ast_children] at hW
          | cons y t2 =>
            exact soundRes_goal (sound_arith o _ x y (by simp [ast_childidx, ast_children]) (by simp [ast_childidx, ast_children])) _)
    case tkLshift | tkRshift =>
      all_goals (
        cases cs with
        | nil => simp [ast_children] at hW
        | cons x t =>
          cases t with
          | nil => simp [ast_children] at hW
          | cons y t2 =>
            exact soundRes_goal (sound_shift o _ x y (by simp [ast_childidx, ast_children]) (by simp [ast_childidx, ast_children])) _)
    case tkEq | tkNe =>
      all_goals (
        cases cs with
        | nil => simp [ast_children] at hW
        | cons x t =>
          cases t with
          | nil => simp [ast_children] at hW
          | cons y t2 =>
            exact soundRes_goal (sound_compare o _ x y (by simp [ast_childidx, ast_children]) (by simp [ast_childidx, ast_children])) _)
    case tkLt | tkLe | tkGe | tkGt =>
      all_goals (
        cases cs with
        | nil => simp [ast_children] at hW
        | cons x t =>
          cases t with
          | nil => simp [ast_children] at hW
          | cons y t2 =>
            rw [expr_order_eq_compare]
            exact soundRes_goal (sound_compare o _ x y (by simp [ast_childidx, ast_children]) (by simp [ast_childidx, ast_children])) _)
    case tkIs | tkIsnt =>
      all_goals (
        cases cs with
        | nil => simp [ast_children] at hW
        | cons x t =>
          cases t with
          | nil => simp [ast_children] at hW
          | cons y t2 =>
            exact soundRes_goal (sound_identity o _ x y (by simp [ast_childidx, ast_children]) (by simp [ast_childidx, ast_children]) (hB "Bool")) _)
    case tkAnd | tkXor | tkOr =>
      all_goals (
        cases cs with
        | nil => simp [ast_children] at hW
        | cons x t =>
          cases t with
          | nil => simp [ast_children] at hW
          | cons y t2 =>
            exact soundRes_goal (sound_logical o _ x y (by simp [ast_childidx, ast_children]) (by simp [ast_childidx, ast_children])) _)
    case tkAssign =>
      cases cs with
      | nil => simp [ast_children] at hW
      | cons x t =>
        cases t with
        | nil => simp [ast_children] at hW
        | cons y t2 =>
          exact soundRes_goal (sound_assign o _ x y (by simp [ast_childidx, ast_children]) (by simp [ast_childidx, ast_children])) _
    case tkMinus =>
      cases cs with
      | nil => simp [ast_children] at hW
      | cons x t => exact soundRes_goal (sound_minus o _ x (by simp [ast_childidx, ast_children])) _
    case tkNot =>
      cases cs with
      | nil => simp [ast_children] at hW
      | cons x t => exact soundRes_goal (sound_not o _ x (by simp [ast_childidx, ast_children])) _
    case tkConsume =>
      exact ⟨fun _ => by simp [expr_consume], fun h => by simp [expr_consume] at h⟩
    case tkDot =>
      cases h1 : ast_childidx (Ast.node .tkDot cs ty nm iv ln ps) 0 <;>
        rw [h1] at hW
      case none => simp at hW
      case some left =>
      cases h2 : ast_childidx (Ast.node .tkDot cs ty nm iv ln ps) 1 <;>
        rw [h2] at hW
      case none => simp at hW
      case some right =>
      simp only [decide_eq_true_eq] at hW
      exact soundRes_goal (sound_dot_int o ctx _ left right h1 h2 hW) _
    case tkQualify =>
      exact ⟨fun _ => by simp [expr_qualify], fun h => by simp [expr_qualify] at h⟩
    case tkCall =>
      cases h1 : ast_childidx (Ast.node .tkCall cs ty nm iv ln ps) 0
      case none => rw [h1] at hW; simp at hW
      case some left =>
      simp only [h1] at hW
      cases htc : ast_type left
      case none => rw [htc] at hW; simp at hW
      case some t =>
      simp only [htc] at hW
      have hk9 : ast_id t = .tkNew ∨ ast_id t = .tkBe ∨ ast_id t = .tkFun ∨
          ast_id t = .tkUnionType ∨ ast_id t = .tkIsectType ∨
          ast_id t = .tkNominal ∨ ast_id t = .tkStructural ∨
          ast_id t = .tkArrow ∨ ast_id t = .tkTupleType := by
        cases t with
        | node tj tcs tty tnm tiv tln tps =>
          simp only [ast_id]
          cases tj <;> simp_all
      exact soundRes_goal (sound_call o ctx _ left t h1 htc hk9) _
    case tkIf =>
      cases cs with
      | nil => simp [ast_children] at hW
      | cons x t =>
        cases t with
        | nil => simp [ast_children] at hW
        | cons y t2 =>
          cases t2 with
          | nil => simp [ast_children] at hW
          | cons z t3 =>
            exact soundRes_goal (sound_if o _ x y z (by simp [ast_childidx, ast_children]) (by simp [ast_childidx, ast_children]) (by simp [ast_childidx, ast_children])) _
    case tkWhile =>
      cases cs with
      | nil => simp [ast_children] at hW
      | cons x t => exact soundRes_goal (sound_while o _ x (by simp [ast_childidx, ast_children])) _
    case tkRepeat =>
      cases cs with
      | nil => simp [ast_children] at hW
      | cons x t =>
        cases t with
        | nil => simp [ast_children] at hW
        | cons y t2 => exact soundRes_goal (sound_repeat o _ x y (by simp [ast_childidx, ast_children]) (by simp [ast_childidx, ast_children])) _
    case tkFor | tkTry =>
      exact ⟨fun _ => by simp, fun h => by simp at h⟩
    case tkTuple =>
      cases cs with
      | nil => simp [ast_children] at hW
      | cons x t =>
        cases t with
        | nil =>
          exact soundRes_goal (sound_tuple o _ (by simp [ast_children])) _
        | cons y t2 =>
          simp only [ast_children, List.all_eq_true] at hW
          exact soundRes_goal (sound_tuple o _ (by
            simp only [ast_children]
            intro c hc
            exact hW c hc)) _
    case tkArray | tkObject =>
      exact ⟨fun _ => by simp, fun h => by simp at h⟩
    case tkInt =>
      exact soundRes_goal (sound_literal o _ "IntLiteral" (hB _)) _
    case tkFloat =>
      exact soundRes_goal (sound_literal o _ "FloatLiteral" (hB _)) _
    case tkString =>
      exact soundRes_goal (sound_literal o _ "String" (hB _)) _
    case tkError =>
      exact soundRes_goal (sound_error ctx _) _

/-- witness for C1 (amended) at a concrete accepted `return` -/
theorem C1_amended_witness :
    (type_expr cOracle ctxB retNode).setType.isSome = true ∨
    ast_id retNode = .tkReturn ∨ ast_id retNode = .tkNew ∨
    ast_id retNode = .tkBe ∨ ast_id retNode = .tkFun :=
  (C1_amended cOracle ctxB retNode rfl (fun _ => rfl)).2 rfl

mutual
/-- no node of the tree (children and attached types included) is
`ERROR`-kinded -/
def errFree : Ast → Bool
  | .node i cs t _ _ _ _ =>
    decide (i ≠ .tkError) && errFreeList cs && errFreeOpt t

/-- `errFree` on a child list -/
def errFreeList : List Ast → Bool
  | [] => true
  | c :: cs => errFree c && errFreeList cs

/-- `errFree` on an optional node -/
def errFreeOpt : Option Ast → Bool
  | none => true
  | some a => errFree a
end

theorem errFreeList_iff (cs : List Ast) :
    errFreeList cs = true ↔ ∀ c ∈ cs, errFree c = true := by
  induction cs with
  | nil => simp [errFreeList]
  | cons c rest ih => simp [errFreeList, Bool.and_eq_true, ih]

theorem errFree_ne (a : Ast) (h : errFree a = true) : ast_id a ≠ .tkError := by
  cases a with
  | node i cs t n v l p =>
    rw [errFree, Bool.and_eq_true, Bool.and_eq_true] at h
    simpa [ast_id] using h.1.1

theorem errFree_children (a : Ast) (h : errFree a = true) :
    ∀ c ∈ ast_children a, errFree c = true := by
  cases a with
  | node i cs t n v l p =>
    rw [errFree, Bool.and_eq_true, Bool.and_eq_true] at h
    simpa [ast_children, ← errFreeList_iff] using h.1.2

theorem errFree_typ (a : Ast) (h : errFree a = true) (t : Ast)
    (ht : ast_type a = some t) : errFree t = true := by
  cases a with
  | node i cs ty n v l p =>
    rw [errFree, Bool.and_eq_true, Bool.and_eq_true] at h
    have := h.2
    simp only [ast_type] at ht
    subst ht
    simpa [errFreeOpt] using this

theorem errFree_childidx (a : Ast) (h : errFree a = true) (i : Nat) (c : Ast)
    (hc : ast_childidx a i = some c) : errFree c = true := by
  refine errFree_children a h c ?_
  cases a with
  | node k cs t n v l p =>
    simp only [ast_childidx, ast_children] at hc ⊢
    obtain ⟨hlt, hEq⟩ := List.getElem?_eq_some.mp hc
    exact hEq ▸ List.getElem_mem hlt

theorem errFree_child (a : Ast) (h : errFree a = true) (c : Ast)
    (hc : ast_child a = some c) : errFree c = true := by
  refine errFree_children a h c ?_
  cases a with
  | node k cs t n v l p =>
    simp only [ast_child, ast_children] at hc ⊢
    exact List.mem_of_mem_head? hc

theorem type_builtin_out (o : Oracle) (a : Ast) (s : String) (t : Ast)
    (h : type_builtin o a s = some t) : ast_type a = some t := by
  unfold type_builtin at h
  split at h
  · exact h
  · simp at h

theorem tiob_out (o : Oracle) (a : Ast) (t : Ast)
    (h : (type_int_or_bool o a).1 = some t) : ast_type a = some t := by
  unfold type_int_or_bool at h
  cases hb : type_bool o a with
  | some tb =>
    rw [hb] at h
    simp at h
    exact h ▸ type_builtin_out o a "Bool" tb hb
  | none =>
    rw [hb] at h
    cases hi : type_int o a with
    | some ti =>
      rw [hi] at h
      simp at h
      exact h ▸ type_builtin_out o a "Integer" ti hi
    | none => rw [hi] at h; simp at h

theorem type_super_out (o : Oracle) (l r : Option Ast) (s : Ast)
    (h : type_super o l r = some s) : l = some s ∨ r = some s := by
  unfold type_super at h
  cases l <;> cases r <;> simp at h
  repeat' split at h
  all_goals simp_all

theorem type_union_out (o : Oracle) (a : Ast) (l r : Option Ast) (u : Ast)
    (h : type_union o a l r = some u) :
    l = some u ∨ r = some u ∨ ast_id u = .tkUnionType := by
  unfold type_union at h
  cases hs : type_super o l r with
  | some s =>
    rw [hs] at h
    simp at h
    rcases type_super_out o l r s hs with h2 | h2
    · exact Or.inl (h ▸ h2)
    · exact Or.inr (Or.inl (h ▸ h2))
  | none =>
    rw [hs] at h
    cases l <;> cases r <;> simp at h
    exact Or.inr (Or.inr (by simp [← h, ast_id]))

theorem tuple_index_errFree (T : Ast) (hT : errFree T = true) (i : Nat)
    (r : Ast) (h : tuple_index T i = some r) : errFree r = true := by
  induction i using Nat.strong_induction_on generalizing T with
  | _ i ih =>
    rw [tuple_index] at h
    by_cases h1 : i > 1
    · rw [if_pos h1] at h
      cases hc : ast_childidx T 1 with
      | none => simp only [hc] at h; exact absurd h (by simp)
      | some right =>
        simp only [hc] at h
        by_cases htt : ast_id right = .tkTupleType
        · rw [if_pos htt] at h
          exact ih (i - 1) (by omega) right (errFree_childidx T hT 1 right hc) h
        · rw [if_neg htt] at h
          simp at h
    · rw [if_neg h1] at h
      by_cases h0 : i = 0
      · rw [if_pos h0] at h
        exact errFree_child T hT r h
      · rw [if_neg h0] at h
        cases hc : ast_childidx T 1 with
        | none => simp only [hc] at h; exact absurd h (by simp)
        | some right =>
          simp only [hc] at h
          by_cases htt : ast_id right = .tkTupleType
          · rw [if_pos htt] at h
            exact errFree_child right (errFree_childidx T hT 1 right hc) r h
          · rw [if_neg htt] at h
            cases h
            exact errFree_childidx T hT 1 r hc

theorem ast_childidx_mem (a : Ast) (i : Nat) (c : Ast)
    (h : ast_childidx a i = some c) : c ∈ ast_children a := by
  cases a with
  | node k cs t n v l p =>
    simp only [ast_childidx, ast_children] at h ⊢
    obtain ⟨hlt, hEq⟩ := List.getElem?_eq_some.mp h
    exact hEq ▸ List.getElem_mem hlt

theorem neErr_field (o : Oracle) (a u : Ast)
    (hch : ∀ c ∈ ast_children a, errFree c = true)
    (hset : (expr_field o a).setType = some (some u)) :
    ast_id u ≠ .tkError := by
  unfold expr_field at hset
  cases h1 : ast_childidx a 1 with
  | none => simp only [h1] at hset; simp [crash] at hset
  | some type0 =>
    cases h2 : ast_childidx a 2 with
    | none => simp only [h1, h2] at hset; simp [crash] at hset
    | some init =>
      simp only [h1, h2] at hset
      have hft : errFree type0 = true := hch type0 (ast_childidx_mem a 1 type0 h1)
      have hfi : errFree init = true := hch init (ast_childidx_mem a 2 init h2)
      repeat' split at hset
      all_goals simp [crash] at hset
      · exact errFree_ne u (errFree_typ init hfi u hset)
      · exact fun hh => absurd hh ((hset ▸ errFree_ne type0 hft))
      · exact fun hh => absurd hh ((hset ▸ errFree_ne type0 hft))

theorem neErr_literal (o : Oracle) (a : Ast) (s : String) (u : Ast)
    (hnb : ∀ s t, o.nomBuiltin s = some t → errFree t = true)
    (hset : (expr_literal o a s).setType = some (some u)) :
    ast_id u ≠ .tkError := by
  unfold expr_literal at hset
  cases hb : o.nomBuiltin s with
  | none => simp only [hb] at hset; simp [crash] at hset
  | some t =>
    simp only [hb] at hset
    simp [crash] at hset
    exact hset ▸ errFree_ne t (hnb s t hb)

theorem neErr_this (o : Oracle) (ctx : Ctx) (a u : Ast)
    (hset : (expr_this o ctx a).setType = some (some u)) :
    ast_id u ≠ .tkError := by
  unfold expr_this at hset
  repeat' split at hset
  all_goals solve
    | (exfalso; simp [crash] at hset)
    | (simp [crash] at hset; rw [← hset]; simp [ast_id])

theorem neErr_type_for_fun (d f : Ast) (hk : ast_id d ≠ .tkError)
    (h : type_for_fun d = some f) : ast_id f ≠ .tkError := by
  unfold type_for_fun at h
  split at h
  · split at h
    · split at h
      · simp at h
      · simp at h
        rw [← h]
        simpa [ast_id] using hk
    · simp at h
      rw [← h]
      simpa [ast_id] using hk
  · simp at h

theorem neErr_reference (o : Oracle) (ctx : Ctx) (a u : Ast)
    (hlk : ∀ s d, ctx.lookup s = some d → errFree d = true)
    (hnt : ∀ p s t, o.nomType p s = some t → errFree t = true)
    (hset : (expr_reference o ctx a).setType = some (some u)) :
    ast_id u ≠ .tkError := by
  unfold expr_reference at hset
  cases h0 : ast_childidx a 0 with
  | none => simp only [h0] at hset; simp [crash] at hset
  | some idnode =>
    simp only [h0] at hset
    cases hl : ctx.lookup (ast_name idnode) with
    | none => simp only [hl] at hset; simp [crash] at hset
    | some defn =>
      simp only [hl] at hset
      have hfd : errFree defn = true := hlk _ defn hl
      have hdk : ast_id defn ≠ .tkError := errFree_ne defn hfd
      split at hset <;>
        solve
        | (exfalso; revert hset; simp [crash])
        | (exfalso; revert hset; split <;> simp [crash])
        | (split at hset
           next => simp [crash] at hset
           next =>
             simp at hset
             exact errFree_ne u (hnt none _ u hset))
        | (split at hset
           next =>
             simp at hset
             exact errFree_ne u (errFree_typ _ hfd u hset)
           next => simp at hset)
        | (split at hset
           next => simp [crash] at hset
           next f htf =>
             simp at hset
             subst hset
             exact neErr_type_for_fun _ f hdk htf)

theorem neErr_dot (o : Oracle) (ctx : Ctx) (a u : Ast)
    (hch : ∀ c ∈ ast_children a, errFree c = true)
    (hnt : ∀ p s t, o.nomType p s = some t → errFree t = true)
    (hset : (expr_dot o ctx a).setType = some (some u)) :
    ast_id u ≠ .tkError := by
  unfold expr_dot at hset
  cases h1 : ast_childidx a 0 with
  | none => simp only [h1] at hset; simp [crash] at hset
  | some left =>
    simp only [h1] at hset
    cases h2 : ast_childidx a 1 with
    | none => simp only [h2] at hset; simp [crash] at hset
    | some right =>
      simp only [h2] at hset
      have hfl : errFree left = true := hch left (ast_childidx_mem a 0 left h1)
      split at hset
      · split at hset
        · split at hset
          · simp at hset
          · split at hset
            · simp [crash] at hset
            · split at hset
              · simp at hset
              · simp at hset
                exact errFree_ne u (hnt _ _ u hset)
        · simp at hset
      · split at hset
        · simp at hset
        · rename_i t ht
          split at hset
          · simp at hset
          · split at hset
            · simp at hset
            · rename_i ty hti
              simp at hset
              subst hset
              exact errFree_ne _
                (tuple_index_errFree t (errFree_typ left hfl t ht) _ ty hti)
      · simp [crash] at hset

theorem neErr_identity (o : Oracle) (a u : Ast)
    (hnb : ∀ s t, o.nomBuiltin s = some t → errFree t = true)
    (hset : (expr_identity o a).setType = some (some u)) :
    ast_id u ≠ .tkError := by
  unfold expr_identity at hset
  split at hset
  · split at hset
    · simp at hset
    · exact neErr_literal o _ "Bool" u hnb hset
  · simp [crash] at hset

theorem neErr_compare (o : Oracle) (a u : Ast)
    (hnb : ∀ s t, o.nomBuiltin s = some t → errFree t = true)
    (hset : (expr_compare o a).setType = some (some u)) :
    ast_id u ≠ .tkError := by
  unfold expr_compare at hset
  split at hset
  · split at hset
    · simp at hset
      exact errFree_ne u (hnb _ u hset)
    · split at hset
      · simp at hset
      · simp at hset
        exact errFree_ne u (hnb _ u hset)
  · simp [crash] at hset

theorem neErr_arith (o : Oracle) (a u : Ast)
    (hch : ∀ c ∈ ast_children a, errFree c = true)
    (hset : (expr_arithmetic o a).setType = some (some u)) :
    ast_id u ≠ .tkError := by
  unfold expr_arithmetic at hset
  split at hset
  · rename_i left right h1 h2
    split at hset
    · simp at hset
    · rename_i ty hsup
      simp at hset
      subst hset
      rcases type_super_out o _ _ ty hsup with hl2 | hr2
      · have h3 := type_builtin_out o left "Arithmetic" ty hl2
        exact errFree_ne ty
          (errFree_typ left (hch left (ast_childidx_mem a 0 left h1)) ty h3)
      · have h3 := type_builtin_out o right "Arithmetic" ty hr2
        exact errFree_ne ty
          (errFree_typ right (hch right (ast_childidx_mem a 1 right h2)) ty h3)
  · simp [crash] at hset

theorem neErr_minus (o : Oracle) (a u : Ast)
    (hch : ∀ c ∈ ast_children a, errFree c = true)
    (hset : (expr_minus o a).setType = some (some u)) :
    ast_id u ≠ .tkError := by
  unfold expr_minus at hset
  cases h1 : ast_childidx a 0 with
  | none => simp only [h1] at hset; simp [crash] at hset
  | some left =>
    simp only [h1] at hset
    have hfl : errFree left = true := hch left (ast_childidx_mem a 0 left h1)
    split at hset
    · rename_i right h2
      split at hset
      · simp at hset
      · rename_i ty hsup
        simp at hset
        subst hset
        rcases type_super_out o _ _ ty hsup with hl2 | hr2
        · have h3 := type_builtin_out o left "Arithmetic" ty hl2
          exact errFree_ne ty (errFree_typ left hfl ty h3)
        · have h3 := type_builtin_out o right "Arithmetic" ty hr2
          exact errFree_ne ty
            (errFree_typ right (hch right (ast_childidx_mem a 1 right h2)) ty h3)
    · split at hset
      · simp at hset
      · rename_i ty hl2
        simp at hset
        subst hset
        have h3 := type_builtin_out o left "Arithmetic" ty hl2
        exact errFree_ne ty (errFree_typ left hfl ty h3)

theorem neErr_shift (o : Oracle) (a u : Ast)
    (hch : ∀ c ∈ ast_children a, errFree c = true)
    (hset : (expr_shift o a).setType = some (some u)) :
    ast_id u ≠ .tkError := by
  unfold expr_shift at hset
  split at hset
  · rename_i left right h1 h2
    split at hset
    · rename_i lt rt hl2 hr2
      simp at hset
      subst hset
      have h3 := type_builtin_out o left "Integer" lt hl2
      exact errFree_ne lt
        (errFree_typ left (hch left (ast_childidx_mem a 0 left h1)) lt h3)
    · simp at hset
  · simp [crash] at hset

theorem neErr_logical (o : Oracle) (a u : Ast)
    (hch : ∀ c ∈ ast_children a, errFree c = true)
    (hset : (expr_logical o a).setType = some (some u)) :
    ast_id u ≠ .tkError := by
  unfold expr_logical at hset
  split at hset
  · rename_i left right h1 h2
    split at hset
    · simp at hset
    · rename_i ty hsup
      simp at hset
      subst hset
      rcases type_super_out o _ _ ty hsup with hl2 | hr2
      · have h3 := tiob_out o left ty hl2
        exact errFree_ne ty
          (errFree_typ left (hch left (ast_childidx_mem a 0 left h1)) ty h3)
      · have h3 := tiob_out o right ty hr2
        exact errFree_ne ty
          (errFree_typ right (hch right (ast_childidx_mem a 1 right h2)) ty h3)
  · simp [crash] at hset

theorem neErr_not (o : Oracle) (a u : Ast)
    (hch : ∀ c ∈ ast_children a, errFree c = true)
    (hset : (expr_not o a).setType = some (some u)) :
    ast_id u ≠ .tkError := by
  unfold expr_not at hset
  cases h1 : ast_childidx a 0 with
  | none => simp only [h1] at hset; simp [crash] at hset
  | some child =>
    simp only [h1] at hset
    split at hset
    · simp at hset
    · rename_i ty ds hx
      simp at hset
      subst hset
      have h3 : (type_int_or_bool o child).1 = some ty := by rw [hx]
      have h4 := tiob_out o child ty h3
      exact errFree_ne ty
        (errFree_typ child (hch child (ast_childidx_mem a 0 child h1)) ty h4)

theorem mapM_ast_type_mem (cs ts : List Ast)
    (h : cs.mapM ast_type = some ts) :
    ∀ t ∈ ts, ∃ c ∈ cs, ast_type c = some t := by
  induction cs generalizing ts with
  | nil =>
    rw [List.mapM_nil] at h
    simp at h
    subst h
    simp
  | cons c rest ih =>
    rw [List.mapM_cons] at h
    cases hc : ast_type c with
    | none => rw [hc] at h; simp at h
    | some t0 =>
      rw [hc] at h
      cases hr : rest.mapM ast_type with
      | none => rw [hr] at h; simp at h
      | some ts0 =>
        rw [hr] at h
        simp at h
        subst h
        intro t ht
        rcases List.mem_cons.mp ht with h2 | h2
        · exact ⟨c, by simp, h2 ▸ hc⟩
        · obtain ⟨c2, hc2, hct⟩ := ih ts0 hr t h2
          exact ⟨c2, by simp [hc2], hct⟩

theorem tuple_spine_ne_error (a : Ast) (ts : List Ast)
    (h : ∀ t ∈ ts, errFree t = true) :
    ast_id (tuple_spine a ts) ≠ .tkError := by
  match ts with
  | [] => simp [tuple_spine, ast_from, ast_id]
  | [t] =>
    simpa [tuple_spine] using errFree_ne t (h t (by simp))
  | t :: t2 :: rest => simp [tuple_spine, ast_id]

theorem neErr_tuple (o : Oracle) (a u : Ast)
    (hch : ∀ c ∈ ast_children a, errFree c = true)
    (hset : (expr_tuple o a).setType = some (some u)) :
    ast_id u ≠ .tkError := by
  unfold expr_tuple at hset
  cases hcs : ast_children a with
  | nil => simp only [hcs] at hset; simp [crash] at hset
  | cons c rest =>
    rw [hcs] at hch
    cases rest with
    | nil =>
      simp only [hcs] at hset
      simp at hset
      exact errFree_ne u (errFree_typ c (hch c (by simp)) u hset)
    | cons c2 r2 =>
      simp only [hcs] at hset
      split at hset
      · simp [crash] at hset
      · rename_i ts hts
        simp at hset
        subst hset
        refine tuple_spine_ne_error a ts ?_
        intro t ht
        obtain ⟨c3, hc3, hct⟩ := mapM_ast_type_mem _ ts hts t ht
        exact errFree_typ c3 (hch c3 hc3) t hct

theorem neErr_call (o : Oracle) (ctx : Ctx) (a u : Ast)
    (hch : ∀ c ∈ ast_children a, errFree c = true)
    (hset : (expr_call o ctx a).setType = some (some u)) :
    ast_id u ≠ .tkError := by
  unfold expr_call at hset
  cases h1 : ast_childidx a 0 with
  | none => simp only [h1] at hset; simp [crash] at hset
  | some left =>
    simp only [h1] at hset
    cases ht : ast_type left with
    | none => simp only [ht] at hset; simp [crash] at hset
    | some t =>
      simp only [ht] at hset
      have hft : errFree t = true :=
        errFree_typ left (hch left (ast_childidx_mem a 0 left h1)) t ht
      split at hset <;>
        solve
        | (split at hset
           next => simp at hset
           next =>
             simp at hset
             exact errFree_ne u (errFree_childidx t hft 4 u hset))
        | simp at hset
        | simp [crash] at hset

theorem neErr_if (o : Oracle) (a u : Ast)
    (hch : ∀ c ∈ ast_children a, errFree c = true)
    (hnb : ∀ s t, o.nomBuiltin s = some t → errFree t = true)
    (hset : (expr_if o a).setType = some (some u)) :
    ast_id u ≠ .tkError := by
  unfold expr_if at hset
  split at hset
  · rename_i cond left right h1 h2 h3
    split at hset
    · simp at hset
    · simp at hset
      rcases type_union_out o a _ _ u hset with h4 | h4 | h4
      · exact errFree_ne u
          (errFree_typ left (hch left (ast_childidx_mem a 1 left h2)) u h4)
      · split at h4
        · exact errFree_ne u (hnb "None" u h4)
        · exact errFree_ne u
            (errFree_typ right (hch right (ast_childidx_mem a 2 right h3)) u h4)
      · rw [h4]
        simp
  · simp [crash] at hset

theorem neErr_while (o : Oracle) (a u : Ast)
    (hnb : ∀ s t, o.nomBuiltin s = some t → errFree t = true)
    (hset : (expr_while o a).setType = some (some u)) :
    ast_id u ≠ .tkError := by
  unfold expr_while at hset
  repeat' split at hset
  all_goals simp [crash] at hset
  exact errFree_ne u (hnb "None" u hset)

theorem neErr_repeat (o : Oracle) (a u : Ast)
    (hnb : ∀ s t, o.nomBuiltin s = some t → errFree t = true)
    (hset : (expr_repeat o a).setType = some (some u)) :
    ast_id u ≠ .tkError := by
  unfold expr_repeat at hset
  repeat' split at hset
  all_goals simp [crash] at hset
  exact errFree_ne u (hnb "None" u hset)

theorem neErr_continue (o : Oracle) (ctx : Ctx) (a u : Ast)
    (hnb : ∀ s t, o.nomBuiltin s = some t → errFree t = true)
    (hset : (expr_continue o ctx a).setType = some (some u)) :
    ast_id u ≠ .tkError := by
  unfold expr_continue at hset
  repeat' split at hset
  all_goals simp [crash] at hset
  exact errFree_ne u (hnb "None" u hset)

theorem neErr_assign (o : Oracle) (a u : Ast)
    (hch : ∀ c ∈ ast_children a, errFree c = true)
    (hset : (expr_assign o a).setType = some (some u)) :
    ast_id u ≠ .tkError := by
  unfold expr_assign at hset
  split at hset
  · rename_i left right h1 h2
    repeat' split at hset
    all_goals simp [crash] at hset
    exact errFree_ne u
      (errFree_typ left (hch left (ast_childidx_mem a 0 left h1)) u hset)
  · simp [crash] at hset

theorem neErr_seq (o : Oracle) (a u : Ast)
    (hch : ∀ c ∈ ast_children a, errFree c = true)
    (hes : ∀ t, o.isSub (some t) (some (ast_from a .tkError)) = true →
      ast_id t = .tkError)
    (hset : (expr_seq o a).setType = some (some u)) :
    ast_id u ≠ .tkError := by
  unfold expr_seq at hset
  cases hcs : ast_children a with
  | nil => simp only [hcs] at hset; simp [crash] at hset
  | cons c rest =>
    rw [hcs] at hch
    simp only [hcs] at hset
    have hlast : ∀ L, (c :: rest).getLast? = some L →
        errFree L = true ∧ (∀ t, ast_type L = some t → errFree t = true) := by
      intro L hL
      have hm := List.mem_of_getLast?_eq_some hL
      exact ⟨hch L hm, fun t ht => errFree_typ L (hch L hm) t ht⟩
    split at hset
    · -- can_error: type_union lastType (some err)
      cases hgl : (c :: rest).getLast? with
      | none => simp at hgl
      | some lastc =>
        simp only [hgl] at hset
        simp at hset
        cases hlt : ast_type lastc with
        | none =>
          rw [hlt] at hset
          simp [type_union, type_super] at hset
        | some L =>
          rw [hlt] at hset
          have hfL : errFree L = true := (hlast lastc hgl).2 L hlt
          cases hL : o.isSub (some L) (some (ast_from a .tkError)) with
          | true => exact absurd (hes L hL) (errFree_ne L hfL)
          | false =>
            cases hR : o.isSub (some (ast_from a .tkError)) (some L) with
            | true =>
              have hs : type_super o (some L) (some (ast_from a .tkError))
                  = some L := by simp [type_super, hL, hR]
              rw [type_union.eq_def, hs] at hset
              simp at hset
              subst hset
              exact errFree_ne _ hfL
            | false =>
              have hs : type_super o (some L) (some (ast_from a .tkError))
                  = none := by simp [type_super, hL, hR]
              rw [type_union.eq_def, hs] at hset
              simp at hset
              subst hset
              simp [ast_id]
    · cases hgl : (c :: rest).getLast? with
      | none => simp at hgl
      | some lastc =>
        simp only [hgl] at hset
        simp at hset
        exact errFree_ne u ((hlast lastc hgl).2 u hset)

theorem expr_fun_setType_none (o : Oracle) (ctx : Ctx) (a : Ast) :
    (expr_fun o ctx a).setType = none := by
  rw [expr_fun.eq_def]
  rcases ast_childidx a 4 with _ | type0
  · rfl
  rcases ast_childidx a 5 with _ | can_error
  · rfl
  rcases ast_childidx a 6 with _ | body
  · rfl
  simp only []
  by_cases hb : ast_id body = TokenId.tkNone
  · rw [if_pos hb]
  · rw [if_neg hb]
    rcases ctx.enclType with _ | defn
    · rfl
    simp only []
    rcases ast_type body with _ | body_type
    · rfl
    simp only []
    by_cases he : ast_id body_type = TokenId.tkError
    · rw [if_pos he]
    · rw [if_neg he]
      by_cases ht : ast_id type0 = TokenId.tkNone
      · rw [if_neg (not_not_intro ht)]
      · rw [if_pos ht]

theorem expr_return_setType_none (o : Oracle) (ctx : Ctx) (a : Ast) :
    (expr_return o ctx a).setType = none := by
  rw [expr_return.eq_def]
  rcases ast_childidx a 0 with _ | body
  · rfl
  simp only []
  rcases ctx.enclMethod with _ | fn
  · rfl
  simp only []
  cases ast_id fn
  case tkBe => simp only []; split <;> rfl
  case tkFun =>
    rcases ast_childidx fn 4 with _ | result0
    · rfl
    simp only []
    repeat' split
    all_goals rfl
  all_goals rfl

/-- C4 (amended): the pass never synthesizes the bare `ERROR` marker out of
error-free material.  If every child of a node (its attached types
included), every definition reachable through the scope lookup, and every
oracle-constructed nominal is free of `ERROR`-kinded nodes, and only
`ERROR`-kinded types are subtypes of the bare marker, then a type attached
by the pass is the bare `ERROR` marker only at an `error` expression
itself.  (The unamended claim fails because the marker propagates: a `SEQ`
whose last child is typed `ERROR` collapses `type_union` to the bare
marker, and a field inferring from such an initialiser copies it.) -/
theorem C4_amended (o : Oracle) (ctx : Ctx) (a : Ast)
    (hch : ∀ c ∈ ast_children a, errFree c = true)
    (hlk : ∀ s d, ctx.lookup s = some d → errFree d = true)
    (hnb : ∀ s t, o.nomBuiltin s = some t → errFree t = true)
    (hnt : ∀ p s t, o.nomType p s = some t → errFree t = true)
    (hes : ∀ t, o.isSub (some t) (some (ast_from a .tkError)) = true →
      ast_id t = .tkError) :
    ∀ u, (type_expr o ctx a).setType = some (some u) →
      ast_id u = .tkError → ast_id a = .tkError := by
  intro u hset hue
  cases a with
  | node i cs ty nm iv ln ps =>
    cases i <;> simp only [type_expr, ast_id] at hset ⊢ <;>
      (try exact Option.noConfusion hset)
    case tkFvar | tkFlet | tkParam =>
      all_goals exact absurd hue (neErr_field o _ u hch hset)
    case tkNew | tkBe | tkFun =>
      all_goals (rw [expr_fun_setType_none] at hset
                 exact Option.noConfusion hset)
    case tkSeq => exact absurd hue (neErr_seq o _ u hch hes hset)
    case tkContinue | tkBreak =>
      all_goals exact absurd hue (neErr_continue o ctx _ u hnb hset)
    case tkReturn =>
      rw [expr_return_setType_none] at hset
      exact Option.noConfusion hset
    case tkMultiply | tkDivide | tkMod | tkPlus =>
      all_goals exact absurd hue (neErr_arith o _ u hch hset)
    case tkMinus => exact absurd hue (neErr_minus o _ u hch hset)
    case tkLshift | tkRshift =>
      all_goals exact absurd hue (neErr_shift o _ u hch hset)
    case tkLt | tkLe | tkGe | tkGt =>
      all_goals (rw [expr_order_eq_compare] at hset
                 exact absurd hue (neErr_compare o _ u hnb hset))
    case tkEq | tkNe =>
      all_goals exact absurd hue (neErr_compare o _ u hnb hset)
    case tkIs | tkIsnt =>
      all_goals exact absurd hue (neErr_identity o _ u hnb hset)
    case tkAnd | tkXor | tkOr =>
      all_goals exact absurd hue (neErr_logical o _ u hch hset)
    case tkNot => exact absurd hue (neErr_not o _ u hch hset)
    case tkAssign => exact absurd hue (neErr_assign o _ u hch hset)
    case tkDot => exact absurd hue (neErr_dot o ctx _ u hch hnt hset)
    case tkCall => exact absurd hue (neErr_call o ctx _ u hch hset)
    case tkIf => exact absurd hue (neErr_if o _ u hch hnb hset)
    case tkWhile => exact absurd hue (neErr_while o _ u hnb hset)
    case tkRepeat => exact absurd hue (neErr_repeat o _ u hnb hset)
    case tkTuple => exact absurd hue (neErr_tuple o _ u hch hset)
    case tkReference =>
      exact absurd hue (neErr_reference o ctx _ u hlk hnt hset)
    case tkThis => exact absurd hue (neErr_this o ctx _ u hset)
    case tkInt => exact absurd hue (neErr_literal o _ "IntLiteral" u hnb hset)
    case tkFloat =>
      exact absurd hue (neErr_literal o _ "FloatLiteral" u hnb hset)
    case tkString => exact absurd hue (neErr_literal o _ "String" u hnb hset)

/-- an untyped integer literal, for the walker counterexample -/
def intLit : Ast := .node .tkInt [] none "" 1 0 0

/-- `{ 1; error }`: a sequence ending in an `error` expression -/
def seqW : Ast := .node .tkSeq [intLit, errT] none "" 0 0 0

/-- the `IntLiteral` nominal produced by `cOracle` -/
def intLitNom : Ast := .node .tkNominal [] none "IntLiteral" 0 0 0

/-- `seqW` after the pass: every node typed, the sequence itself carrying
the bare `ERROR` marker -/
def seqWT : Ast :=
  .node .tkSeq
    [.node .tkInt [] (some intLitNom) "" 1 0 0,
     .node .tkError [] (some errT) "" 0 0 0]
    (some errT) "" 0 0 0

/-- counterexample to C4: running the pass over `{ 1; error }` attaches the
bare `ERROR` marker to the `SEQ` node itself — a node that is not an
`error` expression — because `type_union(ERROR, ERROR)` collapses to the
join instead of building a `UNIONTYPE`. -/
theorem C4_counterexample :
    walk cOracle cCtx seqW = (some seqWT, []) ∧
    ast_id seqWT = .tkSeq ∧ ast_type seqWT = some errT ∧
    ast_id errT = .tkError ∧ TokenId.tkSeq ≠ TokenId.tkError := by
  refine ⟨?_, rfl, rfl, rfl, by decide⟩
  have h1 : walk cOracle
      (childCtx cCtx (Ast.node .tkSeq [intLit, errT] none "" 0 0 0) 0 true)
      intLit
      = (some (Ast.node .tkInt [] (some intLitNom) "" 1 0 0), []) := by
    rw [intLit, walk.eq_1, walkKids.eq_1]
    rfl
  have h2 : walk cOracle
      (childCtx cCtx (Ast.node .tkSeq [intLit, errT] none "" 0 0 0) 1 false)
      errT
      = (some (Ast.node .tkError [] (some errT) "" 0 0 0), []) := by
    rw [errT, walk.eq_1, walkKids.eq_1]
    rfl
  have hk : walkKids cOracle cCtx
      (Ast.node .tkSeq [intLit, errT] none "" 0 0 0) 0 [intLit, errT]
      = (some [Ast.node .tkInt [] (some intLitNom) "" 1 0 0,
               Ast.node .tkError [] (some errT) "" 0 0 0], []) := by
    rw [walkKids.eq_2]
    simp only [List.isEmpty_cons, Bool.not_false]
    rw [h1]
    simp only []
    rw [walkKids.eq_2]
    simp only [List.isEmpty_nil, Bool.not_true]
    rw [h2]
    simp only []
    rw [walkKids.eq_1]
    rfl
  rw [seqW, walk.eq_1, hk]
  rfl

/-- structural equality agrees on kind tags -/
theorem astBeq_id (x y : Ast) (h : astBeq x y = true) :
    ast_id x = ast_id y := by
  cases x with
  | node i1 cs1 t1 n1 v1 l1 p1 =>
    cases y with
    | node i2 cs2 t2 n2 v2 l2 p2 =>
      rw [astBeq] at h
      simp only [Bool.and_eq_true, decide_eq_true_eq] at h
      simpa [ast_id] using h.1.1.1.1.1.1

/-- witness for C4 (amended): at an `error` expression the conclusion is
realised — the pass attaches the bare marker and the node is indeed an
`error` expression -/
theorem C4_amended_witness : ast_id errT = .tkError :=
  C4_amended cOracle cCtx errT (by simp [errT, ast_children])
    (fun _ d h => Option.noConfusion h)
    (fun s t h => by cases h; rfl)
    (fun p s t h => by cases h; rfl)
    (fun t h => (astBeq_id t _ h).trans rfl)
    errT rfl rfl

/-- `type_expr` never reads the visited node's own type slot: every
component consults only the node kind, its children and the context. -/
theorem tuple_spine_congr (a b : Ast) (hl : ast_line a = ast_line b)
    (hp : ast_pos a = ast_pos b) (ts : List Ast) :
    tuple_spine a ts = tuple_spine b ts := by
  induction ts with
  | nil => simp [tuple_spine, ast_from, hl, hp]
  | cons t rest ih =>
    cases rest with
    | nil => rfl
    | cons t2 ts2 =>
      simp only [tuple_spine]
      rw [hl, hp, ih]

theorem type_expr_settype (o : Oracle) (ctx : Ctx) (a : Ast) (v : Option Ast) :
    type_expr o ctx (ast_settype a v) = type_expr o ctx a := by
  cases a with
  | node i cs ty nm iv ln ps =>
    cases i
    case tkTuple =>
      rcases cs with _ | ⟨c1, _ | ⟨c2, cs2⟩⟩
      · rfl
      · rfl
      · simp only [type_expr, ast_id, ast_settype, expr_tuple, ast_children]
        rcases (c1 :: c2 :: cs2).mapM ast_type with _ | ts
        · rfl
        · try simp only []
          rw [tuple_spine_congr
            (Ast.node TokenId.tkTuple (c1 :: c2 :: cs2) v nm iv ln ps)
            (Ast.node TokenId.tkTuple (c1 :: c2 :: cs2) ty nm iv ln ps)
            rfl rfl]
    all_goals rfl

theorem stripTypes_settype (a : Ast) (v : Option Ast) :
    stripTypes (ast_settype a v) = stripTypes a := by
  cases a with
  | node i cs ty nm iv ln ps => simp [ast_settype, stripTypes]

theorem stripTypes_ast_id (a : Ast) : ast_id (stripTypes a) = ast_id a := by
  cases a with
  | node i cs ty nm iv ln ps => simp [stripTypes, ast_id]

theorem applyResult_strip (a : Ast) (r : ExprResult) :
    stripTypes (applyResult a r) = stripTypes a := by
  unfold applyResult
  split
  · rfl
  · exact stripTypes_settype a _

theorem stripList_isEmpty (l : List Ast) :
    (stripList l).isEmpty = l.isEmpty := by
  cases l <;> simp [stripList]

/-- the context built for a child depends on the parent only through its
kind and type-erased skeleton -/
theorem childCtx_congr (ctx : Ctx) (p1 p2 : Ast) (i : Nat) (b : Bool)
    (h : stripTypes p1 = stripTypes p2) :
    childCtx ctx p1 i b = childCtx ctx p2 i b := by
  have hid : ast_id p1 = ast_id p2 := by
    rw [← stripTypes_ast_id p1, ← stripTypes_ast_id p2, h]
  unfold childCtx
  rw [hid, h]

mutual
/-- an accepted walk only fills type slots: the type-erased tree is
unchanged -/
theorem walk_strip (o : Oracle) (ctx : Ctx) (a t : Ast) (ds : List String)
    (h : walk o ctx a = (some t, ds)) : stripTypes t = stripTypes a := by
  cases a with
  | node i cs ty nm iv ln ps =>
    rw [walk.eq_1] at h
    cases hk : walkKids o ctx (Ast.node i cs ty nm iv ln ps) 0 cs with
    | mk k1 ds1 =>
      rw [hk] at h
      cases k1 with
      | none => simp at h
      | some cs2 =>
        simp only at h
        split at h
        · simp at h
          obtain ⟨ht, hds⟩ := h
          rw [← ht, applyResult_strip]
          simp only [stripTypes]
          rw [walkKids_strip o ctx _ 0 cs cs2 ds1 hk]
        · simp at h
  termination_by sizeOf a

/-- `walk_strip` for a child list -/
theorem walkKids_strip (o : Oracle) (ctx : Ctx) (p : Ast) (i : Nat)
    (cs cs2 : List Ast) (ds : List String)
    (h : walkKids o ctx p i cs = (some cs2, ds)) :
    stripList cs2 = stripList cs := by
  cases cs with
  | nil =>
    rw [walkKids.eq_1] at h
    simp at h
    rw [h.1]
  | cons c rest =>
    rw [walkKids.eq_2] at h
    cases hw : walk o (childCtx ctx p i (!rest.isEmpty)) c with
    | mk w1 wds =>
      rw [hw] at h
      cases w1 with
      | none => simp at h
      | some c2 =>
        cases hr : walkKids o ctx p (i + 1) rest with
        | mk r1 rds =>
          rw [hr] at h
          cases r1 with
          | none => simp at h
          | some rest2 =>
            simp at h
            obtain ⟨hcs2, hds⟩ := h
            rw [← hcs2]
            simp only [stripList]
            rw [walk_strip o _ c c2 wds hw,
              walkKids_strip o ctx p (i + 1) rest rest2 rds hr]
  termination_by sizeOf cs
end

theorem def_before_use_ok (d u : Ast) (s : String) :
    (def_before_use d u s).1 = true → (def_before_use d u s).2 = [] := by
  unfold def_before_use
  split <;> simp

theorem tiob_empty (o : Oracle) (x : Ast) (t : Ast)
    (h : (type_int_or_bool o x).1 = some t) :
    (type_int_or_bool o x).2 = [] := by
  rcases type_int_or_bool_spec o x with ⟨t2, h2⟩ | h2 <;> rw [h2] <;>
    rw [h2] at h <;> simp_all

theorem type_super_some (o : Oracle) (l r : Option Ast) (s : Ast)
    (h : type_super o l r = some s) :
    (∃ x, l = some x) ∧ ∃ y, r = some y := by
  cases l with
  | none => simp [type_super] at h
  | some x =>
    cases r with
    | none => simp [type_super] at h
    | some y => exact ⟨⟨x, rfl⟩, ⟨y, rfl⟩⟩

/-- `expr_literal` never emits a diagnostic -/
theorem lit_diags (o : Oracle) (a : Ast) (nm : String) :
    (expr_literal o a nm).diags = [] := by
  rw [expr_literal.eq_def]; split <;> rfl

/-- a guard of the shape `if c then (false, msgs) else (true, [])` has no
messages when its flag is set -/
theorem okd_part (c : Prop) [Decidable c] (l : List String)
    (h : (if c then ((false : Bool), l)
          else ((true : Bool), ([] : List String))).1 = true) :
    (if c then ((false : Bool), l)
     else ((true : Bool), ([] : List String))).2 = [] := by
  by_cases hc : c
  · rw [if_pos hc] at h; exact absurd h (by simp)
  · rw [if_neg hc]

/-- two-sided variant of `okd_part`, for the partiality guard of
`expr_fun` -/
theorem okd_part2 (q c1 c2 : Prop) [Decidable q] [Decidable c1]
    [Decidable c2] (l1 l2 : List String)
    (h : (if q then (if c1 then ((false : Bool), l1)
                     else ((true : Bool), ([] : List String)))
          else (if c2 then ((false : Bool), l2)
                else ((true : Bool), ([] : List String)))).1 = true) :
    (if q then (if c1 then ((false : Bool), l1)
                else ((true : Bool), ([] : List String)))
     else (if c2 then ((false : Bool), l2)
           else ((true : Bool), ([] : List String)))).2 = [] := by
  by_cases hq : q
  · rw [if_pos hq] at h ⊢; exact okd_part c1 l1 h
  · rw [if_neg hq] at h ⊢; exact okd_part c2 l2 h

theorem okd_field (o : Oracle) (a : Ast)
    (h : (expr_field o a).ok = true) : (expr_field o a).diags = [] := by
  rw [expr_field.eq_def] at h ⊢
  repeat' split
  all_goals simp_all [crash]

theorem okd_this (o : Oracle) (ctx : Ctx) (a : Ast)
    (h : (expr_this o ctx a).ok = true) : (expr_this o ctx a).diags = [] := by
  rw [expr_this.eq_def] at h ⊢
  repeat' split
  all_goals simp_all [crash]

theorem okd_reference (o : Oracle) (ctx : Ctx) (a : Ast) :
    (expr_reference o ctx a).ok = true →
    (expr_reference o ctx a).diags = [] := by
  rw [expr_reference.eq_def]
  rcases ast_childidx a 0 with _ | idnode
  · simp [crash]
  simp only []
  rcases hlk : ctx.lookup (ast_name idnode) with _ | defn
  · simp
  simp only []
  cases ast_id defn
  all_goals simp only []
  case tkPackage => split <;> simp
  case tkType => rcases ast_childidx defn 0 with _ | idn <;> simp [crash]
  case tkClass => rcases ast_childidx defn 0 with _ | idn <;> simp [crash]
  case tkActor => rcases ast_childidx defn 0 with _ | idn <;> simp [crash]
  case tkFvar =>
    rcases hd : def_before_use defn a (ast_name idnode) with ⟨b, ds⟩
    cases b <;> simp
  case tkFlet =>
    rcases hd : def_before_use defn a (ast_name idnode) with ⟨b, ds⟩
    cases b <;> simp
  case tkParam =>
    rcases hd : def_before_use defn a (ast_name idnode) with ⟨b, ds⟩
    cases b <;> simp
  case tkNew => rcases type_for_fun defn with _ | f <;> simp [crash]
  case tkBe => rcases type_for_fun defn with _ | f <;> simp [crash]
  case tkFun => rcases type_for_fun defn with _ | f <;> simp [crash]
  case tkIdseq =>
    rcases hd : def_before_use defn a (ast_name idnode) with ⟨b, ds⟩
    cases b <;> simp
  all_goals simp [crash]

theorem okd_dot (o : Oracle) (ctx : Ctx) (a : Ast) :
    (expr_dot o ctx a).ok = true → (expr_dot o ctx a).diags = [] := by
  rw [expr_dot.eq_def]
  rcases ast_childidx a 0 with _ | left
  · simp [crash]
  rcases ast_childidx a 1 with _ | right
  · simp [crash]
  simp only []
  cases ast_id right
  all_goals simp only []
  case tkId =>
    rcases ast_type left with _ | t
    · simp only []
      rcases ctx.lookup (ast_name left) with _ | package
      · simp
      simp only []
      split
      · simp [crash]
      · rcases o.pkgGet package (ast_name right) with _ | g <;> simp
    · simp
  case tkInt =>
    rcases ast_type left with _ | t
    · simp
    · simp only []
      split
      · simp
      · rcases tuple_index t (ast_int right) with _ | ty <;> simp
  all_goals simp [crash]

theorem okd_identity (o : Oracle) (a : Ast) :
    (expr_identity o a).ok = true → (expr_identity o a).diags = [] := by
  rw [expr_identity.eq_def]
  rcases ast_childidx a 0 with _ | left
  · simp [crash]
  rcases ast_childidx a 1 with _ | right
  · simp [crash]
  simp only []
  split
  · simp
  · intro _
    exact lit_diags o a "Bool"

theorem okd_compare (o : Oracle) (a : Ast)
    (h : (expr_compare o a).ok = true) : (expr_compare o a).diags = [] := by
  rw [expr_compare.eq_def] at h ⊢
  repeat' split
  all_goals simp_all [crash]

theorem okd_order (o : Oracle) (a : Ast)
    (h : (expr_order o a).ok = true) : (expr_order o a).diags = [] := by
  rw [expr_order.eq_def] at h ⊢
  repeat' split
  all_goals simp_all [crash]

theorem okd_arith (o : Oracle) (a : Ast)
    (h : (expr_arithmetic o a).ok = true) :
    (expr_arithmetic o a).diags = [] := by
  rw [expr_arithmetic.eq_def] at h ⊢
  repeat' split
  all_goals simp_all [crash]

theorem okd_minus (o : Oracle) (a : Ast)
    (h : (expr_minus o a).ok = true) : (expr_minus o a).diags = [] := by
  rw [expr_minus.eq_def] at h ⊢
  repeat' split
  all_goals simp_all [crash]

theorem okd_shift (o : Oracle) (a : Ast)
    (h : (expr_shift o a).ok = true) : (expr_shift o a).diags = [] := by
  rw [expr_shift.eq_def] at h ⊢
  repeat' split
  all_goals simp_all [crash]

theorem okd_logical (o : Oracle) (a : Ast) :
    (expr_logical o a).ok = true → (expr_logical o a).diags = [] := by
  rw [expr_logical.eq_def]
  rcases ast_childidx a 0 with _ | left
  · simp [crash]
  rcases ast_childidx a 1 with _ | right
  · simp [crash]
  simp only []
  cases hsup : type_super o (type_int_or_bool o left).1
      (type_int_or_bool o right).1 with
  | none => simp
  | some ty =>
    intro _
    obtain ⟨⟨x, hx⟩, ⟨y, hy⟩⟩ := type_super_some o _ _ ty hsup
    simp [tiob_empty o left x hx, tiob_empty o right y hy]

theorem okd_not (o : Oracle) (a : Ast) :
    (expr_not o a).ok = true → (expr_not o a).diags = [] := by
  rw [expr_not.eq_def]
  rcases ast_childidx a 0 with _ | child
  · simp [crash]
  simp only []
  rcases hx : type_int_or_bool o child with ⟨t1, ds⟩
  cases t1 with
  | none => simp
  | some ty =>
    intro _
    have h2 : (type_int_or_bool o child).1 = some ty := by rw [hx]
    have h3 := tiob_empty o child ty h2
    rw [hx] at h3
    simpa using h3

theorem okd_assign (o : Oracle) (a : Ast)
    (h : (expr_assign o a).ok = true) : (expr_assign o a).diags = [] := by
  rw [expr_assign.eq_def] at h ⊢
  repeat' split
  all_goals simp_all [crash]

theorem okd_call (o : Oracle) (ctx : Ctx) (a : Ast)
    (h : (expr_call o ctx a).ok = true) : (expr_call o ctx a).diags = [] := by
  rw [expr_call.eq_def] at h ⊢
  repeat' split
  all_goals simp_all [crash]

theorem okd_if (o : Oracle) (a : Ast)
    (h : (expr_if o a).ok = true) : (expr_if o a).diags = [] := by
  rw [expr_if.eq_def] at h ⊢
  repeat' split
  all_goals simp_all [crash]

theorem okd_while (o : Oracle) (a : Ast)
    (h : (expr_while o a).ok = true) : (expr_while o a).diags = [] := by
  rw [expr_while.eq_def] at h ⊢
  repeat' split
  all_goals simp_all [crash]

theorem okd_repeat (o : Oracle) (a : Ast)
    (h : (expr_repeat o a).ok = true) : (expr_repeat o a).diags = [] := by
  rw [expr_repeat.eq_def] at h ⊢
  repeat' split
  all_goals simp_all [crash]

theorem okd_continue (o : Oracle) (ctx : Ctx) (a : Ast)
    (h : (expr_continue o ctx a).ok = true) :
    (expr_continue o ctx a).diags = [] := by
  rw [expr_continue.eq_def] at h ⊢
  repeat' split
  all_goals simp_all [crash]

theorem okd_fun (o : Oracle) (ctx : Ctx) (a : Ast) :
    (expr_fun o ctx a).ok = true → (expr_fun o ctx a).diags = [] := by
  rw [expr_fun.eq_def]
  rcases ast_childidx a 4 with _ | type0
  · simp [crash]
  rcases ast_childidx a 5 with _ | can_error
  · simp [crash]
  rcases ast_childidx a 6 with _ | body
  · simp [crash]
  simp only []
  by_cases hb : ast_id body = TokenId.tkNone
  · rw [if_pos hb]; simp
  · rw [if_neg hb]
    rcases ctx.enclType with _ | defn
    · simp [crash]
    simp only []
    rcases ast_type body with _ | body_type
    · simp [crash]
    simp only []
    by_cases he : ast_id body_type = TokenId.tkError
    · rw [if_pos he]; simp
    · rw [if_neg he]
      by_cases ht : ast_id type0 = TokenId.tkNone
      · rw [if_neg (not_not_intro ht)]
        intro h
        simp [okd_part2 _ _ _ _ _ (by simpa using h)]
      · rw [if_pos ht]
        intro h
        simp only [Bool.and_eq_true] at h
        obtain ⟨⟨h1, h2⟩, h3⟩ := h
        have e1 := okd_part2 _ _ _ _ _ h1
        have e2 := okd_part _ _ h2
        have e3 := okd_part _ _ h3
        simp only [e1, e2, e3]
        rfl

theorem okd_return (o : Oracle) (ctx : Ctx) (a : Ast) :
    (expr_return o ctx a).ok = true → (expr_return o ctx a).diags = [] := by
  rw [expr_return.eq_def]
  rcases ast_childidx a 0 with _ | body
  · simp [crash]
  simp only []
  rcases ctx.enclMethod with _ | fn
  · simp
  simp only []
  cases ast_id fn
  all_goals simp only []
  case tkNew => simp
  case tkBe =>
    by_cases hsub : ¬ o.isSub (ast_type body) (o.nomBuiltin "None") = true
    · rw [if_pos hsub]; simp
    · rw [if_neg hsub]
      intro h
      simp at h
      simp [h]
  case tkFun =>
    rcases ast_childidx fn 4 with _ | result0
    · simp [crash]
    simp only []
    by_cases hsub : ¬ o.isSub (ast_type body)
        (if ast_id result0 = TokenId.tkNone then o.nomBuiltin "None"
         else some result0) = true
    · rw [if_pos hsub]; simp
    · rw [if_neg hsub]
      intro h
      simp at h
      simp [h]
  all_goals simp [crash]

theorem okd_error (ctx : Ctx) (a : Ast)
    (h : (expr_error ctx a).ok = true) : (expr_error ctx a).diags = [] := by
  rw [expr_error.eq_def] at h ⊢
  repeat' split
  all_goals simp_all [crash]

theorem okd_tuple (o : Oracle) (a : Ast) :
    (expr_tuple o a).ok = true → (expr_tuple o a).diags = [] := by
  rw [expr_tuple.eq_def]
  repeat' split
  all_goals simp_all [crash]

theorem okd_seq (o : Oracle) (a : Ast) :
    (expr_seq o a).ok = true → (expr_seq o a).diags = [] := by
  rw [expr_seq.eq_def]
  split
  · simp [crash]
  · simp only []
    split <;> simp

/-- whenever the dispatcher accepts a node it has emitted no diagnostic -/
theorem ok_no_diags (o : Oracle) (ctx : Ctx) (a : Ast)
    (h : (type_expr o ctx a).ok = true) : (type_expr o ctx a).diags = [] := by
  cases a with
  | node i cs ty nm iv ln ps =>
    cases i <;> simp only [type_expr, ast_id] at h ⊢ <;>
      first
        | rfl
        | exact absurd h Bool.false_ne_true
        | exact okd_field o _ h
        | exact okd_fun o ctx _ h
        | exact okd_seq o _ h
        | exact okd_continue o ctx _ h
        | exact okd_return o ctx _ h
        | exact okd_arith o _ h
        | exact okd_minus o _ h
        | exact okd_shift o _ h
        | exact okd_order o _ h
        | exact okd_compare o _ h
        | exact okd_identity o _ h
        | exact okd_logical o _ h
        | exact okd_not o _ h
        | exact okd_assign o _ h
        | exact okd_dot o ctx _ h
        | exact okd_call o ctx _ h
        | exact okd_if o _ h
        | exact okd_while o _ h
        | exact okd_repeat o _ h
        | exact okd_tuple o _ h
        | exact okd_reference o ctx _ h
        | exact okd_this o ctx _ h
        | exact lit_diags o _ _
        | exact okd_error ctx _ h

mutual
/-- re-running the pass over an already-accepted tree is a no-op -/
theorem walk_idem (o : Oracle) (ctx : Ctx) (a t : Ast) (ds : List String)
    (h : walk o ctx a = (some t, ds)) : walk o ctx t = (some t, []) := by
  cases a with
  | node i cs ty nm iv ln ps =>
    rw [walk.eq_1] at h
    cases hk : walkKids o ctx (Ast.node i cs ty nm iv ln ps) 0 cs with
    | mk k1 ds1 =>
      rw [hk] at h
      cases k1 with
      | none => simp at h
      | some cs2 =>
        simp only at h
        split at h
        · rename_i hok
          simp at h
          obtain ⟨ht, hds⟩ := h
          have hks := walkKids_strip o ctx _ 0 cs cs2 ds1 hk
          have hnd := ok_no_diags o ctx (Ast.node i cs2 ty nm iv ln ps) hok
          cases hst : (type_expr o ctx (Ast.node i cs2 ty nm iv ln ps)).setType
            with
          | none =>
            have ht2 : t = Ast.node i cs2 ty nm iv ln ps := by
              rw [← ht]; unfold applyResult; rw [hst]
            subst ht2
            rw [walk.eq_1]
            rw [walkKids_idem o ctx (Ast.node i cs ty nm iv ln ps) 0 cs cs2
              ds1 hk (Ast.node i cs2 ty nm iv ln ps)
              (by simp [stripTypes]; exact hks)]
            simp only
            rw [if_pos hok]
            unfold applyResult
            rw [hst, hnd]
            rfl
          | some v =>
            have ht2 : t = Ast.node i cs2 v nm iv ln ps := by
              rw [← ht]; unfold applyResult; rw [hst]; rfl
            subst ht2
            have hre : type_expr o ctx (Ast.node i cs2 v nm iv ln ps) =
                type_expr o ctx (Ast.node i cs2 ty nm iv ln ps) := by
              have h3 := type_expr_settype o ctx
                (Ast.node i cs2 ty nm iv ln ps) v
              simpa [ast_settype] using h3
            rw [walk.eq_1]
            rw [walkKids_idem o ctx (Ast.node i cs ty nm iv ln ps) 0 cs cs2
              ds1 hk (Ast.node i cs2 v nm iv ln ps)
              (by simp [stripTypes]; exact hks)]
            simp only
            rw [hre, if_pos hok]
            unfold applyResult
            rw [hst, hnd]
            simp [ast_settype]
        · simp at h
  termination_by sizeOf a

/-- `walk_idem` for a child list; the parent may be replaced by any node
with the same type-erased skeleton -/
theorem walkKids_idem (o : Oracle) (ctx : Ctx) (p : Ast) (i : Nat)
    (cs cs2 : List Ast) (ds : List String)
    (h : walkKids o ctx p i cs = (some cs2, ds)) (p2 : Ast)
    (hp : stripTypes p2 = stripTypes p) :
    walkKids o ctx p2 i cs2 = (some cs2, []) := by
  cases cs with
  | nil =>
    rw [walkKids.eq_1] at h
    simp at h
    rw [h.1, walkKids.eq_1]
  | cons c rest =>
    rw [walkKids.eq_2] at h
    cases hw : walk o (childCtx ctx p i (!rest.isEmpty)) c with
    | mk w1 wds =>
      rw [hw] at h
      cases w1 with
      | none => simp at h
      | some c2 =>
        cases hr : walkKids o ctx p (i + 1) rest with
        | mk r1 rds =>
          rw [hr] at h
          cases r1 with
          | none => simp at h
          | some rest2 =>
            simp at h
            obtain ⟨hcs2, hds⟩ := h
            rw [← hcs2]
            rw [walkKids.eq_2]
            have hie : rest2.isEmpty = rest.isEmpty := by
              have h2 := walkKids_strip o ctx p (i + 1) rest rest2 rds hr
              rw [← stripList_isEmpty rest2, ← stripList_isEmpty rest, h2]
            have hcc : childCtx ctx p2 i (!rest2.isEmpty) =
                childCtx ctx p i (!rest.isEmpty) := by
              rw [hie]
              exact childCtx_congr ctx p2 p i _ hp
            rw [hcc, walk_idem o _ c c2 wds hw]
            simp only
            rw [walkKids_idem o ctx p (i + 1) rest rest2 rds hr p2 hp]
            rfl
  termination_by sizeOf cs
end

/-- C9: running `type_expr` (as the post callback of the post-order
walker) a second time over a tree the first run fully accepted is a no-op:
the second run returns OK at every node, emits no diagnostic, and returns
the very same tree — in particular every node's attached type is
unchanged. -/
theorem C9_second_run_noop (o : Oracle) (ctx : Ctx) (a t : Ast)
    (ds : List String) (h : walk o ctx a = (some t, ds)) :
    walk o ctx t = (some t, []) :=
  walk_idem o ctx a t ds h

/-- `intLit` after the pass -/
def intLitT : Ast := .node .tkInt [] (some intLitNom) "" 1 0 0

/-- witness for C9: a first run over a literal, then the theorem applied
to its result -/
theorem C9_second_run_noop_witness :
    walk cOracle cCtx intLitT = (some intLitT, []) := by
  have h1 : walk cOracle cCtx intLit = (some intLitT, []) := by
    rw [intLit, walk.eq_1, walkKids.eq_1]
    simp [type_expr, ast_id, expr_literal, cOracle, applyResult,
      ast_settype, intLitT, intLitNom]
  exact C9_second_run_noop cOracle cCtx intLit intLitT [] h1
